import Mathlib

/-!
Frequency-reuse planning (`fqgeographical.c`).

A shallow embedding of the planning core of `fqgeographical.c`: the network
registry (`initialize_network`, `add_cell`), the cluster and frequency
assigners (`assign_clusters`, `assign_frequencies`) and the interference
detector (`check_interference`, `simulate_interference_check`).

* C `int` values are modelled as `Int`; every value the program computes stays
  far inside the 32-bit range (counters are bounded by `MAX_CELLS`, remainders
  by their operands), so no wrap-around arises.  The two undefined cases of
  the C `%` operator are kept as faults.
* C `double` values are modelled by an abstract carrier `F` with the
  operations the program uses (`-`, `+`, `pow`, `sqrt`, `<`).  Laws of double
  arithmetic beyond the order laws of `<` (`x - x = 0` for finite `x`,
  `pow(0, 2) = 0`, `0 + 0 = 0`, `sqrt(0) = 0`; the square of a difference does
  not depend on the order of its operands) are premises of the theorems that
  need them.  Two concrete carriers serve to evaluate the model: the integers
  (`gridArith`) and the integers with `+inf`, `-inf` and NaN (`extArith`).
* The fixed array `cells[MAX_CELLS]` is a function on `Fin MAX_CELLS`; an
  access through an `int` index outside `[0, MAX_CELLS)` is a fault.
* Functions that can leave defined behaviour return `Except Fault`; the
  theorems on them prove that the result is `ok` and what it is.
* A record is a network when `0 ≤ num_cells ≤ MAX_CELLS`, which holds of every
  record the program builds (`Dense`).  Theorems about "every network" assume
  the part of these bounds that they need.
* The header line of `simulate_interference_check` and the whole of
  `display_network` and `main` (console input, random placement) are not
  modelled.
-/

namespace FreqReuse

/-- The `#define MAX_CELLS 100` of the source. -/
def MAX_CELLS : Nat := 100

/-- Least value of a 32-bit C `int`. -/
def INT_MIN : Int := -2147483648

/-- The ways in which the C program can leave defined behaviour. -/
inductive Fault where
  | div_by_zero
  | int_overflow
  | out_of_bounds
  deriving DecidableEq

/-- The arithmetic on C `double` that the program relies on.  `lt` is the
IEEE-754 comparison `<`, which is irreflexive and transitive on all doubles
(every comparison with a NaN is false). -/
class DoubleArith (F : Type) where
  sub : F → F → F
  add : F → F → F
  pow : F → F → F
  sqrt : F → F
  ofInt : Int → F
  lt : F → F → Bool
  lt_irrefl : ∀ a, lt a a = false
  lt_trans : ∀ a b c, lt a b = true → lt b c = true → lt a c = true

/-- The `CellTower` record. -/
structure CellTower (F : Type) where
  id : Int
  x : F
  y : F
  frequency : Int
  cluster_id : Int
  deriving DecidableEq

/-- The `CellularNetwork` record; `cells` has exactly `MAX_CELLS` slots, of
which the first `num_cells` are in use. -/
structure CellularNetwork (F : Type) where
  cells : Fin MAX_CELLS → CellTower F
  num_cells : Int
  num_frequencies : Int
  reuse_factor : Int

/-- The C remainder `a % b` on `int`: truncated remainder, undefined for
`b = 0` and for `INT_MIN % -1`. -/
def c_mod (a b : Int) : Except Fault Int :=
  if b = 0 then .error .div_by_zero
  else if a = INT_MIN ∧ b = -1 then .error .int_overflow
  else .ok (Int.tmod a b)

/-- Resolution of an `int` subscript into the array `cells[MAX_CELLS]`. -/
def index (i : Int) : Except Fault (Fin MAX_CELLS) :=
  if h : 0 ≤ i ∧ i < (MAX_CELLS : Int) then
    .ok ⟨i.toNat, by have := h.1; have := h.2; omega⟩
  else .error .out_of_bounds

/-- Read of `network->cells[i]`. -/
def load {F : Type} (network : CellularNetwork F) (i : Int) : Except Fault (CellTower F) :=
  match index i with
  | .ok k => .ok (network.cells k)
  | .error e => .error e

/-- Write to (fields of) `network->cells[i]`. -/
def store {F : Type} (network : CellularNetwork F) (i : Int) (f : CellTower F → CellTower F) :
    Except Fault (CellularNetwork F) :=
  match index i with
  | .ok k => .ok { network with cells := Function.update network.cells k (f (network.cells k)) }
  | .error e => .error e

/-- A counted loop `for (int i = start; ...; i++)` performing `k` iterations
of `body`, stopping at the first fault. -/
def iterate {σ : Type} (body : σ → Int → Except Fault σ) : Nat → Int → σ → Except Fault σ
  | 0, _, s => .ok s
  | k + 1, i, s =>
    match body s i with
    | .ok s' => iterate body k (i + 1) s'
    | .error e => .error e

/-- The loop `for (int i = lo; i < hi; i++) body`, for a bound `hi` that the
body leaves unchanged. -/
def for_loop {σ : Type} (lo hi : Int) (body : σ → Int → Except Fault σ) (s : σ) :
    Except Fault σ :=
  iterate body (hi - lo).toNat lo s

/-- Function `calculate_distance`: `sqrt(pow(x2 - x1, 2) + pow(y2 - y1, 2))`. -/
def calculate_distance {F : Type} [DoubleArith F] (x1 y1 x2 y2 : F) : F :=
  DoubleArith.sqrt
    (DoubleArith.add (DoubleArith.pow (DoubleArith.sub x2 x1) (DoubleArith.ofInt 2))
      (DoubleArith.pow (DoubleArith.sub y2 y1) (DoubleArith.ofInt 2)))

/-- Function `initialize_network`: sets the three scalar fields of the record it is
handed; the array is not touched. -/
def initialize_network {F : Type} (network : CellularNetwork F)
    (reuse_factor num_frequencies : Int) : CellularNetwork F :=
  { network with
    num_cells := 0
    reuse_factor := reuse_factor
    num_frequencies := num_frequencies }

/-- Function `add_cell`: below capacity, fills the slot `cells[num_cells]` and
increments `num_cells`; at capacity, does nothing. -/
def add_cell {F : Type} (network : CellularNetwork F) (x y : F) :
    Except Fault (CellularNetwork F) :=
  if network.num_cells < (MAX_CELLS : Int) then
    match store network network.num_cells (fun _ =>
        { id := network.num_cells, x := x, y := y, frequency := -1, cluster_id := -1 }) with
    | .ok network' => .ok { network' with num_cells := network'.num_cells + 1 }
    | .error e => .error e
  else .ok network

/-- Body of the loop of `assign_clusters`:
`network->cells[i].cluster_id = i % network->reuse_factor`. -/
def assign_clusters_body {F : Type} (network : CellularNetwork F) (i : Int) :
    Except Fault (CellularNetwork F) :=
  match c_mod i network.reuse_factor with
  | .ok c => store network i (fun t => { t with cluster_id := c })
  | .error e => .error e

/-- Function `assign_clusters`: the loop over the slots in use. -/
def assign_clusters {F : Type} (network : CellularNetwork F) :
    Except Fault (CellularNetwork F) :=
  for_loop 0 network.num_cells assign_clusters_body network

/-- Body of the loop of `assign_frequencies`:
`network->cells[i].frequency = network->cells[i].cluster_id % network->num_frequencies`. -/
def assign_frequencies_body {F : Type} (network : CellularNetwork F) (i : Int) :
    Except Fault (CellularNetwork F) :=
  match load network i with
  | .ok t =>
    match c_mod t.cluster_id network.num_frequencies with
    | .ok f => store network i (fun t' => { t' with frequency := f })
    | .error e => .error e
  | .error e => .error e

/-- Function `assign_frequencies`: first `assign_clusters`, then the frequency loop. -/
def assign_frequencies {F : Type} (network : CellularNetwork F) :
    Except Fault (CellularNetwork F) :=
  match assign_clusters network with
  | .ok network' => for_loop 0 network'.num_cells assign_frequencies_body network'
  | .error e => .error e

/-- Function `check_interference`: `1` when the two cells carry the same frequency and
their computed distance is below `min_distance`, else `0`. -/
def check_interference {F : Type} [DoubleArith F] (network : CellularNetwork F)
    (cell1 cell2 : Int) (min_distance : F) : Except Fault Int :=
  match load network cell1, load network cell2 with
  | .ok t1, .ok t2 =>
    let distance := calculate_distance t1.x t1.y t2.x t2.y
    if t1.frequency = t2.frequency ∧ DoubleArith.lt distance min_distance = true then .ok 1
    else .ok 0
  | .error e, _ => .error e
  | _, .error e => .error e

/-- What `simulate_interference_check` writes after its header line: the
pairs named by the lines "Interference between Cell i and Cell j", in the
order printed, the final value of `interference_count`, and whether the
closing "No interference detected" line was printed. -/
structure Report where
  pairs : List (Int × Int)
  interference_count : Int
  none_detected : Bool

/-- Body of the inner loop of `simulate_interference_check`, for the outer
index `i`: the state is the list of pairs printed so far and
`interference_count`. -/
def inner_body {F : Type} [DoubleArith F] (network : CellularNetwork F) (min_distance : F)
    (i : Int) (s : List (Int × Int) × Int) (j : Int) : Except Fault (List (Int × Int) × Int) :=
  match check_interference network i j min_distance with
  | .ok r => if r ≠ 0 then .ok (s.1 ++ [(i, j)], s.2 + 1) else .ok s
  | .error e => .error e

/-- Body of the outer loop: `for (int j = i + 1; j < network->num_cells; j++)`. -/
def outer_body {F : Type} [DoubleArith F] (network : CellularNetwork F) (min_distance : F)
    (s : List (Int × Int) × Int) (i : Int) : Except Fault (List (Int × Int) × Int) :=
  for_loop (i + 1) network.num_cells (inner_body network min_distance i) s

/-- Function `simulate_interference_check`: the double loop over `i < j`, then
the closing test on `interference_count`. -/
def simulate_interference_check {F : Type} [DoubleArith F] (network : CellularNetwork F)
    (min_distance : F) : Except Fault Report :=
  match for_loop 0 network.num_cells (outer_body network min_distance) ([], 0) with
  | .ok s => .ok { pairs := s.1, interference_count := s.2, none_detected := decide (s.2 = 0) }
  | .error e => .error e

/-- The deployment loop of `main`: one `add_cell` per position, in order. -/
def add_cells {F : Type} (network : CellularNetwork F) :
    List (F × F) → Except Fault (CellularNetwork F)
  | [] => .ok network
  | p :: ps =>
    match add_cell network p.1 p.2 with
    | .ok network' => add_cells network' ps
    | .error e => .error e

/-- The operations that change a network after its initialisation. -/
inductive Op (F : Type) where
  | add_cell (x y : F)
  | assign_clusters
  | assign_frequencies

/-- One operation applied to a network. -/
def step {F : Type} (network : CellularNetwork F) : Op F → Except Fault (CellularNetwork F)
  | .add_cell x y => add_cell network x y
  | .assign_clusters => assign_clusters network
  | .assign_frequencies => assign_frequencies network

/-- A sequence of operations applied from left to right. -/
def run {F : Type} (network : CellularNetwork F) : List (Op F) → Except Fault (CellularNetwork F)
  | [] => .ok network
  | op :: ops =>
    match step network op with
    | .ok network' => run network' ops
    | .error e => .error e

/-- The errors the specification gives to network creation. -/
inductive ConfigError where
  | InvalidConfiguration
  deriving DecidableEq

/-- Network creation as the specification words it: it fails with
`InvalidConfiguration` if either parameter is non-positive, and otherwise
gives the empty network with the given configuration. -/
def createNetwork_spec {F : Type} (network : CellularNetwork F)
    (reuseFactor frequencyPoolSize : Int) : Except ConfigError (CellularNetwork F) :=
  if reuseFactor ≤ 0 ∨ frequencyPoolSize ≤ 0 then .error .InvalidConfiguration
  else .ok { network with
    num_cells := 0
    reuse_factor := reuseFactor
    num_frequencies := frequencyPoolSize }

/-- Integer coordinates with the integer square root: a concrete carrier on
which the operations can be evaluated. -/
instance gridArith : DoubleArith Int where
  sub a b := a - b
  add a b := a + b
  pow a b := a ^ b.toNat
  sqrt a := Int.sqrt a
  ofInt n := n
  lt a b := decide (a < b)
  lt_irrefl a := by simp
  lt_trans a b c := by
    simp only [decide_eq_true_eq]
    exact fun h1 h2 => lt_trans h1 h2

/-- A record whose array holds the same blank tower in every slot, and whose
scalar fields are zero. -/
def blank : CellularNetwork Int :=
  { cells := fun _ => { id := 0, x := 0, y := 0, frequency := 0, cluster_id := 0 }
    num_cells := 0
    num_frequencies := 0
    reuse_factor := 0 }

/-- The network after the first `j` iterations of the loop of
`assign_clusters`. -/
def clusters_upto {F : Type} (network : CellularNetwork F) (j : Int) : CellularNetwork F :=
  { network with
    cells := fun k =>
      if (k.val : Int) < j then
        { network.cells k with cluster_id := Int.tmod (k.val : Int) network.reuse_factor }
      else network.cells k }

/-- The network after the first `j` iterations of the second loop of
`assign_frequencies`. -/
def frequencies_upto {F : Type} (network : CellularNetwork F) (j : Int) : CellularNetwork F :=
  { network with
    cells := fun k =>
      if (k.val : Int) < j then
        { network.cells k with
          frequency := Int.tmod (network.cells k).cluster_id network.num_frequencies }
      else network.cells k }

/-- The network that `assign_frequencies` produces: in every slot in use,
`cluster_id` is the remainder of the slot number by `reuse_factor` and
`frequency` the remainder of that by `num_frequencies`. -/
def assigned {F : Type} (network : CellularNetwork F) : CellularNetwork F :=
  { network with
    cells := fun k =>
      if (k.val : Int) < network.num_cells then
        { network.cells k with
          cluster_id := Int.tmod (k.val : Int) network.reuse_factor
          frequency :=
            Int.tmod (Int.tmod (k.val : Int) network.reuse_factor) network.num_frequencies }
      else network.cells k }

/-- The registry invariant: the count stays within the array, and the tower
in each slot in use carries the number of its slot as `id`. -/
def Dense {F : Type} (network : CellularNetwork F) : Prop :=
  0 ≤ network.num_cells ∧ network.num_cells ≤ (MAX_CELLS : Int) ∧
    ∀ k : Fin MAX_CELLS, (k.val : Int) < network.num_cells → (network.cells k).id = (k.val : Int)

/-- Relation between a network and a later one in which only the `cluster_id`
and `frequency` fields of towers may differ. -/
def Framed {F : Type} (a b : CellularNetwork F) : Prop :=
  b.num_cells = a.num_cells ∧ b.reuse_factor = a.reuse_factor ∧
    b.num_frequencies = a.num_frequencies ∧
    ∀ k : Fin MAX_CELLS, (b.cells k).id = (a.cells k).id ∧ (b.cells k).x = (a.cells k).x ∧
      (b.cells k).y = (a.cells k).y

/-- A sample history: three towers, an assignment pass, a fourth tower. -/
def sample_ops : List (Op Int) :=
  [.add_cell 0 0, .add_cell 0 0, .add_cell 100 100, .assign_frequencies, .add_cell 7 7]

/-- The network that `sample_ops` leads to from a blank record initialised
with reuse factor 3 and five frequencies. -/
def sample_network : CellularNetwork Int :=
  match run (initialize_network blank 3 5) sample_ops with
  | .ok network => network
  | .error _ => blank

/-- A record holding `MAX_CELLS` towers. -/
def full_network : CellularNetwork Int :=
  { blank with num_cells := 100 }

/-- A record holding two towers. -/
def two_cells : CellularNetwork Int :=
  { blank with num_cells := 2, reuse_factor := 3, num_frequencies := 5 }

/-- Whether the test `if (check_interference(network, i, j, min_distance))`
of the inner loop passes. -/
def hit {F : Type} [DoubleArith F] (network : CellularNetwork F) (min_distance : F)
    (i j : Int) : Bool :=
  match check_interference network i j min_distance with
  | .ok r => decide (r ≠ 0)
  | .error _ => false

/-- The pairs `(i, lo), (i, lo + 1), ..., (i, lo + k - 1)` that pass the
test, in that order. -/
def row {F : Type} [DoubleArith F] (network : CellularNetwork F) (min_distance : F)
    (i lo : Int) (k : Nat) : List (Int × Int) :=
  ((List.range k).map (fun t : Nat => (i, lo + (t : Int)))).filter
    (fun p => hit network min_distance p.1 p.2)

/-- The rows of the outer indices `0, ..., m - 1`, one after the other. -/
def rows {F : Type} [DoubleArith F] (network : CellularNetwork F) (min_distance : F) :
    Nat → List (Int × Int)
  | 0 => []
  | m + 1 =>
    rows network min_distance m
      ++ row network min_distance (m : Int) ((m : Int) + 1)
          (network.num_cells - ((m : Int) + 1)).toNat

/-- Lexicographic order on pairs of indices. -/
def lex_lt (p q : Int × Int) : Prop :=
  p.1 < q.1 ∨ (p.1 = q.1 ∧ p.2 < q.2)

/-- A network of four towers on one spot with a single frequency. -/
def crowded_network : CellularNetwork Int :=
  match run (initialize_network blank 2 1)
      [.add_cell 0 0, .add_cell 0 0, .add_cell 0 0, .add_cell 0 0, .assign_frequencies] with
  | .ok network => network
  | .error _ => blank

/-- Two towers on one spot, added to a network initialised with reuse factor 3
and five frequencies, and never given a frequency. -/
def unassigned_pair : CellularNetwork Int :=
  match add_cells (initialize_network blank 3 5) [(0, 0), (0, 0)] with
  | .ok network => network
  | .error _ => blank

/-- The values that the counter of `for (int i = lo; i < hi; i++)` takes, in
order. -/
def loop_counters (lo hi : Int) : List Int :=
  (List.range (hi - lo).toNat).map (fun t : Nat => lo + (t : Int))

/-- Doubles reduced to the integers and the three special values `+inf`,
`-inf` and NaN: a carrier on which arithmetic with the special values can be
evaluated, the special values following IEEE 754. -/
inductive ExtDouble where
  | fin (v : Int)
  | pinf
  | ninf
  | nan
  deriving DecidableEq

/-- Negation: the infinities change sign, NaN stays NaN. -/
def ExtDouble.neg : ExtDouble → ExtDouble
  | .fin a => .fin (-a)
  | .pinf => .ninf
  | .ninf => .pinf
  | .nan => .nan

/-- Addition: NaN is absorbing, and `+inf + -inf` is NaN. -/
def ExtDouble.add : ExtDouble → ExtDouble → ExtDouble
  | .fin a, .fin b => .fin (a + b)
  | .nan, _ => .nan
  | _, .nan => .nan
  | .pinf, .ninf => .nan
  | .ninf, .pinf => .nan
  | .pinf, _ => .pinf
  | _, .pinf => .pinf
  | .ninf, _ => .ninf
  | _, .ninf => .ninf

/-- Multiplication: NaN is absorbing, `0 * inf` is NaN, and otherwise the
sign of a product with an infinity is the product of the signs. -/
def ExtDouble.mul : ExtDouble → ExtDouble → ExtDouble
  | .fin a, .fin b => .fin (a * b)
  | .nan, _ => .nan
  | _, .nan => .nan
  | .fin a, .pinf => if a = 0 then .nan else if 0 < a then .pinf else .ninf
  | .pinf, .fin a => if a = 0 then .nan else if 0 < a then .pinf else .ninf
  | .fin a, .ninf => if a = 0 then .nan else if 0 < a then .ninf else .pinf
  | .ninf, .fin a => if a = 0 then .nan else if 0 < a then .ninf else .pinf
  | .pinf, .pinf => .pinf
  | .ninf, .ninf => .pinf
  | .pinf, .ninf => .ninf
  | .ninf, .pinf => .ninf

/-- Power with a natural exponent, as a repeated product; the empty product
is 1, as `pow(x, 0)` is for every `x`. -/
def ExtDouble.npow (x : ExtDouble) : Nat → ExtDouble
  | 0 => .fin 1
  | k + 1 => ExtDouble.mul (ExtDouble.npow x k) x

/-- Square root: NaN for NaN, for `-inf` and for negative values, `+inf` for
`+inf`, and the integer square root on the other values. -/
def ExtDouble.sqrt : ExtDouble → ExtDouble
  | .fin a => if a < 0 then .nan else .fin (Int.sqrt a)
  | .pinf => .pinf
  | .ninf => .nan
  | .nan => .nan

/-- The comparison `<`: false whenever an operand is NaN. -/
def ExtDouble.lt : ExtDouble → ExtDouble → Bool
  | .fin a, .fin b => decide (a < b)
  | .ninf, .fin _ => true
  | .ninf, .pinf => true
  | .fin _, .pinf => true
  | _, _ => false

/-- The carrier `ExtDouble` with its operations.  The program raises to the
power 2 only; exponents that are not non-negative integers are given NaN. -/
instance extArith : DoubleArith ExtDouble where
  sub a b := ExtDouble.add a (ExtDouble.neg b)
  add := ExtDouble.add
  pow x e :=
    match e with
    | .fin b => if 0 ≤ b then ExtDouble.npow x b.toNat else .nan
    | _ => .nan
  sqrt := ExtDouble.sqrt
  ofInt n := .fin n
  lt := ExtDouble.lt
  lt_irrefl a := by
    cases a <;> simp [ExtDouble.lt]
  lt_trans a b c := by
    cases a <;> cases b <;> cases c <;> simp [ExtDouble.lt]
    omega

theorem index_ok (i : Int) (h0 : 0 ≤ i) (h1 : i < (MAX_CELLS : Int)) :
    ∃ k : Fin MAX_CELLS, index i = .ok k ∧ (k.val : Int) = i := by
  refine ⟨⟨i.toNat, by omega⟩, ?_, ?_⟩
  · simp [index, h0, h1]
  · simp [Int.toNat_of_nonneg h0]

theorem index_fin (k : Fin MAX_CELLS) : index (k.val : Int) = .ok k := by
  have h : (0:Int) ≤ (k.val : Int) ∧ (k.val : Int) < (MAX_CELLS : Int) :=
    ⟨Int.ofNat_nonneg _, by exact_mod_cast k.isLt⟩
  simp [index, h]

theorem load_fin {F : Type} (network : CellularNetwork F) (k : Fin MAX_CELLS) :
    load network (k.val : Int) = .ok (network.cells k) := by
  simp [load, index_fin]

theorem store_fin {F : Type} (network : CellularNetwork F) (k : Fin MAX_CELLS)
    (f : CellTower F → CellTower F) :
    store network (k.val : Int) f
      = .ok { network with cells := Function.update network.cells k (f (network.cells k)) } := by
  simp [store, index_fin]


theorem add_cell_eq {F : Type} (network : CellularNetwork F) (x y : F) (k : Fin MAX_CELLS)
    (hk : (k.val : Int) = network.num_cells) :
    add_cell network x y = .ok
      { network with
        cells := Function.update network.cells k
          { id := network.num_cells, x := x, y := y, frequency := -1, cluster_id := -1 }
        num_cells := network.num_cells + 1 } := by
  have h1 : network.num_cells < (MAX_CELLS : Int) := by
    rw [← hk]; exact_mod_cast k.isLt
  have hs := store_fin network k (fun _ =>
    ({ id := network.num_cells, x := x, y := y, frequency := -1, cluster_id := -1 } : CellTower F))
  rw [hk] at hs
  simp only [add_cell, h1, if_true, hs]

/-! ## Loops -/

theorem iterate_eq {σ : Type} (body : σ → Int → Except Fault σ) (k : Nat) :
    ∀ (g : Nat → σ) (i : Int),
      (∀ t : Nat, t < k → body (g t) (i + (t : Int)) = .ok (g (t + 1))) →
      iterate body k i (g 0) = .ok (g k) := by
  induction k with
  | zero => intro g i _; rfl
  | succ k ih =>
    intro g i hstep
    have h0 := hstep 0 (Nat.succ_pos k)
    simp only [Nat.cast_zero, add_zero, zero_add] at h0
    have hrest := ih (fun t => g (t + 1)) (i + 1) (by
      intro t ht
      have := hstep (t + 1) (Nat.succ_lt_succ ht)
      have e : i + ((t + 1 : Nat) : Int) = i + 1 + (t : Int) := by push_cast; ring
      rw [e] at this
      exact this)
    simp only [iterate, h0]
    exact hrest

theorem clusters_upto_zero {F : Type} (network : CellularNetwork F) (j : Int) (hj : j ≤ 0) :
    clusters_upto network j = network := by
  have : (fun k : Fin MAX_CELLS =>
      if (k.val : Int) < j then
        { network.cells k with cluster_id := Int.tmod (k.val : Int) network.reuse_factor }
      else network.cells k) = network.cells := by
    funext k
    have : ¬ (k.val : Int) < j := by omega
    simp [this]
  simp only [clusters_upto, this]

theorem c_mod_nonneg (a b : Int) (ha : 0 ≤ a) (hb : b ≠ 0) : c_mod a b = .ok (Int.tmod a b) := by
  have : a ≠ INT_MIN := by
    intro h; rw [h] at ha; revert ha; decide
  simp [c_mod, hb, this]

theorem assign_clusters_step {F : Type} (network : CellularNetwork F) (t : Nat)
    (ht : t < MAX_CELLS) (hrf : network.reuse_factor ≠ 0) :
    assign_clusters_body (clusters_upto network (t : Int)) (t : Int)
      = .ok (clusters_upto network ((t + 1 : Nat) : Int)) := by
  have hc : c_mod (t : Int) network.reuse_factor = .ok (Int.tmod (t : Int) network.reuse_factor) :=
    c_mod_nonneg _ _ (Int.ofNat_nonneg t) hrf
  have hs := store_fin (clusters_upto network (t : Int)) ⟨t, ht⟩
    (fun c => { c with cluster_id := Int.tmod (t : Int) network.reuse_factor })
  simp only at hs
  have hrf' : (clusters_upto network (t : Int)).reuse_factor = network.reuse_factor := rfl
  simp only [assign_clusters_body, hrf', hc, hs]
  congr 1
  simp only [clusters_upto]
  congr 1
  funext k
  by_cases hk : k = ⟨t, ht⟩
  · subst hk
    simp
  · have hne : k.val ≠ t := fun h => hk (Fin.ext h)
    rw [Function.update_noteq hk]
    by_cases hlt : k.val < t
    · have h1 : (k.val : Int) < (t : Int) := by exact_mod_cast hlt
      have h2 : (k.val : Int) < (t : Int) + 1 := by omega
      simp [h1, h2]
    · have h1 : ¬ (k.val : Int) < (t : Int) := by omega
      have h2 : ¬ (k.val : Int) < (t : Int) + 1 := by omega
      simp [h1, h2]

theorem assign_clusters_eq {F : Type} (network : CellularNetwork F)
    (hn : network.num_cells ≤ (MAX_CELLS : Int))
    (hrf : network.reuse_factor ≠ 0 ∨ network.num_cells ≤ 0) :
    assign_clusters network = .ok (clusters_upto network network.num_cells) := by
  by_cases hpos : network.num_cells ≤ 0
  · have h0 : (network.num_cells - 0).toNat = 0 := by omega
    simp only [assign_clusters, for_loop, h0, iterate]
    rw [clusters_upto_zero network _ hpos]
  · have hrf' : network.reuse_factor ≠ 0 := by
      rcases hrf with h | h
      · exact h
      · exact absurd h hpos
    have key := iterate_eq assign_clusters_body (network.num_cells - 0).toNat
      (fun t => clusters_upto network (t : Int)) 0 (by
        intro t ht
        have : t < MAX_CELLS := by omega
        simp only [zero_add]
        exact assign_clusters_step network t this hrf')
    simp only [Nat.cast_zero] at key
    rw [clusters_upto_zero network 0 (le_refl 0)] at key
    have e : (((network.num_cells - 0).toNat : Nat) : Int) = network.num_cells := by omega
    rw [e] at key
    simpa [assign_clusters, for_loop] using key

theorem frequencies_upto_zero {F : Type} (network : CellularNetwork F) (j : Int) (hj : j ≤ 0) :
    frequencies_upto network j = network := by
  have : (fun k : Fin MAX_CELLS =>
      if (k.val : Int) < j then
        { network.cells k with
          frequency := Int.tmod (network.cells k).cluster_id network.num_frequencies }
      else network.cells k) = network.cells := by
    funext k
    have : ¬ (k.val : Int) < j := by omega
    simp [this]
  simp only [frequencies_upto, this]

theorem assign_frequencies_step {F : Type} (network : CellularNetwork F) (t : Nat)
    (ht : t < MAX_CELLS) (hnf : network.num_frequencies ≠ 0)
    (hc : 0 ≤ (network.cells ⟨t, ht⟩).cluster_id) :
    assign_frequencies_body (frequencies_upto network (t : Int)) (t : Int)
      = .ok (frequencies_upto network ((t + 1 : Nat) : Int)) := by
  have hl := load_fin (frequencies_upto network (t : Int)) ⟨t, ht⟩
  have hcell : (frequencies_upto network (t : Int)).cells ⟨t, ht⟩ = network.cells ⟨t, ht⟩ := by
    simp [frequencies_upto]
  rw [hcell] at hl
  simp only at hl
  have hm : c_mod (network.cells ⟨t, ht⟩).cluster_id network.num_frequencies
      = .ok (Int.tmod (network.cells ⟨t, ht⟩).cluster_id network.num_frequencies) :=
    c_mod_nonneg _ _ hc hnf
  have hs := store_fin (frequencies_upto network (t : Int)) ⟨t, ht⟩
    (fun c => { c with
      frequency := Int.tmod (network.cells ⟨t, ht⟩).cluster_id network.num_frequencies })
  rw [hcell] at hs
  simp only at hs
  have hnf' : (frequencies_upto network (t : Int)).num_frequencies = network.num_frequencies :=
    rfl
  simp only [assign_frequencies_body, hl, hnf', hm, hs]
  congr 1
  simp only [frequencies_upto]
  congr 1
  funext k
  by_cases hk : k = ⟨t, ht⟩
  · subst hk
    simp
  · have hne : k.val ≠ t := fun h => hk (Fin.ext h)
    rw [Function.update_noteq hk]
    by_cases hlt : k.val < t
    · have h1 : (k.val : Int) < (t : Int) := by exact_mod_cast hlt
      have h2 : (k.val : Int) < (t : Int) + 1 := by omega
      simp [h1, h2]
    · have h1 : ¬ (k.val : Int) < (t : Int) := by omega
      have h2 : ¬ (k.val : Int) < (t : Int) + 1 := by omega
      simp [h1, h2]

theorem frequency_loop_eq {F : Type} (network : CellularNetwork F)
    (hn : network.num_cells ≤ (MAX_CELLS : Int))
    (hnf : network.num_frequencies ≠ 0 ∨ network.num_cells ≤ 0)
    (hc : ∀ k : Fin MAX_CELLS, (k.val : Int) < network.num_cells →
      0 ≤ (network.cells k).cluster_id) :
    for_loop 0 network.num_cells assign_frequencies_body network
      = .ok (frequencies_upto network network.num_cells) := by
  by_cases hpos : network.num_cells ≤ 0
  · have h0 : (network.num_cells - 0).toNat = 0 := by omega
    simp only [for_loop, h0, iterate]
    rw [frequencies_upto_zero network _ hpos]
  · have hnf' : network.num_frequencies ≠ 0 := by
      rcases hnf with h | h
      · exact h
      · exact absurd h hpos
    have key := iterate_eq assign_frequencies_body (network.num_cells - 0).toNat
      (fun t => frequencies_upto network (t : Int)) 0 (by
        intro t ht
        have hlt : t < MAX_CELLS := by omega
        simp only [zero_add]
        exact assign_frequencies_step network t hlt hnf' (hc ⟨t, hlt⟩ (by simp only; omega)))
    simp only [Nat.cast_zero] at key
    rw [frequencies_upto_zero network 0 (le_refl 0)] at key
    have e : (((network.num_cells - 0).toNat : Nat) : Int) = network.num_cells := by omega
    rw [e] at key
    simpa [for_loop] using key

theorem assign_frequencies_eq {F : Type} (network : CellularNetwork F)
    (hn : network.num_cells ≤ (MAX_CELLS : Int))
    (hrf : network.reuse_factor ≠ 0 ∨ network.num_cells ≤ 0)
    (hnf : network.num_frequencies ≠ 0 ∨ network.num_cells ≤ 0) :
    assign_frequencies network = .ok (assigned network) := by
  have h1 := assign_clusters_eq network hn hrf
  have h2 := frequency_loop_eq (clusters_upto network network.num_cells) hn hnf (by
    intro k hk
    have hk' : (k.val : Int) < network.num_cells := hk
    simp only [clusters_upto, hk', if_true]
    exact Int.tmod_nonneg _ (Int.ofNat_nonneg _))
  simp only [assign_frequencies, h1]
  rw [h2]
  congr 1
  simp only [frequencies_upto, clusters_upto, assigned]
  congr 1
  funext k
  by_cases hk : (k.val : Int) < network.num_cells
  · simp [hk]
  · simp [hk]

/-! ## Frame of the assignment passes -/

theorem framed_refl {F : Type} (a : CellularNetwork F) : Framed a a :=
  ⟨rfl, rfl, rfl, fun _ => ⟨rfl, rfl, rfl⟩⟩

theorem framed_trans {F : Type} {a b c : CellularNetwork F} (h1 : Framed a b) (h2 : Framed b c) :
    Framed a c := by
  obtain ⟨n1, r1, f1, c1⟩ := h1
  obtain ⟨n2, r2, f2, c2⟩ := h2
  refine ⟨n2.trans n1, r2.trans r1, f2.trans f1, fun k => ?_⟩
  obtain ⟨i1, x1, y1⟩ := c1 k
  obtain ⟨i2, x2, y2⟩ := c2 k
  exact ⟨i2.trans i1, x2.trans x1, y2.trans y1⟩

theorem store_framed {F : Type} (s s' : CellularNetwork F) (i : Int)
    (f : CellTower F → CellTower F)
    (h : store s i f = .ok s')
    (hf : ∀ c, (f c).id = c.id ∧ (f c).x = c.x ∧ (f c).y = c.y) : Framed s s' := by
  unfold store at h
  split at h
  · rename_i k hk
    cases h
    refine ⟨rfl, rfl, rfl, fun m => ?_⟩
    by_cases hm : m = k
    · subst hm
      simpa using hf (s.cells m)
    · simp [Function.update_noteq hm]
  · cases h

theorem assign_clusters_body_framed {F : Type} (s s' : CellularNetwork F) (i : Int)
    (h : assign_clusters_body s i = .ok s') : Framed s s' := by
  unfold assign_clusters_body at h
  split at h
  · exact store_framed s s' i _ h (fun c => ⟨rfl, rfl, rfl⟩)
  · cases h

theorem assign_frequencies_body_framed {F : Type} (s s' : CellularNetwork F) (i : Int)
    (h : assign_frequencies_body s i = .ok s') : Framed s s' := by
  unfold assign_frequencies_body at h
  split at h
  · split at h
    · exact store_framed s s' i _ h (fun c => ⟨rfl, rfl, rfl⟩)
    · cases h
  · cases h

theorem iterate_inv {σ : Type} (body : σ → Int → Except Fault σ) (P : σ → Prop)
    (hP : ∀ s i s', P s → body s i = .ok s' → P s') (k : Nat) :
    ∀ (i : Int) (s s' : σ), P s → iterate body k i s = .ok s' → P s' := by
  induction k with
  | zero =>
    intro i s s' hs h
    simp only [iterate] at h
    cases h
    exact hs
  | succ k ih =>
    intro i s s' hs h
    simp only [iterate] at h
    split at h
    · rename_i s1 h1
      exact ih (i + 1) s1 s' (hP s i s1 hs h1) h
    · cases h

theorem assign_clusters_framed {F : Type} (network network' : CellularNetwork F)
    (h : assign_clusters network = .ok network') : Framed network network' :=
  iterate_inv assign_clusters_body (Framed network)
    (fun s i s' hs hb => framed_trans hs (assign_clusters_body_framed s s' i hb))
    _ _ network network' (framed_refl network) h

theorem assign_frequencies_framed {F : Type} (network network' : CellularNetwork F)
    (h : assign_frequencies network = .ok network') : Framed network network' := by
  unfold assign_frequencies at h
  split at h
  · rename_i n1 h1
    have f1 := assign_clusters_framed network n1 h1
    exact iterate_inv assign_frequencies_body (Framed network)
      (fun s i s' hs hb => framed_trans hs (assign_frequencies_body_framed s s' i hb))
      _ _ n1 network' f1 h
  · cases h

theorem dense_framed {F : Type} {a b : CellularNetwork F} (hd : Dense a) (hf : Framed a b) :
    Dense b := by
  obtain ⟨h0, h1, hid⟩ := hd
  obtain ⟨hn, -, -, hc⟩ := hf
  refine ⟨hn ▸ h0, hn ▸ h1, fun k hk => ?_⟩
  rw [(hc k).1]
  exact hid k (hn ▸ hk)

/-! ## The registry -/

theorem initialize_network_dense {F : Type} (network : CellularNetwork F) (rf nf : Int) :
    Dense (initialize_network network rf nf) :=
  ⟨le_refl 0, by simp [initialize_network], fun k hk => by
    have : (0 : Int) ≤ (k.val : Int) := Int.ofNat_nonneg _
    simp only [initialize_network] at hk
    omega⟩

theorem add_cell_dense {F : Type} (network : CellularNetwork F) (x y : F) (hd : Dense network) :
    ∃ network', add_cell network x y = .ok network' ∧ Dense network' ∧
      network'.reuse_factor = network.reuse_factor ∧
      network'.num_frequencies = network.num_frequencies ∧
      network'.num_cells = min (network.num_cells + 1) (MAX_CELLS : Int) ∧
      ∀ k : Fin MAX_CELLS, (k.val : Int) < network.num_cells →
        network'.cells k = network.cells k := by
  obtain ⟨h0, h1, hid⟩ := hd
  by_cases hfull : network.num_cells < (MAX_CELLS : Int)
  · obtain ⟨k, -, hkv⟩ := index_ok network.num_cells h0 hfull
    refine ⟨_, add_cell_eq network x y k hkv, ⟨?_, ?_, ?_⟩, rfl, rfl, ?_, ?_⟩
    · simp only; omega
    · simp only; omega
    · intro m hm
      simp only at hm ⊢
      by_cases hmk : m = k
      · subst hmk
        simp [hkv]
      · rw [Function.update_noteq hmk]
        apply hid
        have : m.val ≠ k.val := fun h => hmk (Fin.ext h)
        omega
    · simp only; omega
    · intro m hm
      have hmk : m ≠ k := by
        intro h; subst h; omega
      simp only [Function.update_noteq hmk]
  · refine ⟨network, by simp [add_cell, hfull], ⟨h0, h1, hid⟩, rfl, rfl, ?_, fun _ _ => rfl⟩
    omega

theorem add_cells_dense {F : Type} (pts : List (F × F)) :
    ∀ network : CellularNetwork F, Dense network →
      ∃ network', add_cells network pts = .ok network' ∧ Dense network' ∧
        network'.reuse_factor = network.reuse_factor ∧
        network'.num_frequencies = network.num_frequencies ∧
        network'.num_cells = min (network.num_cells + (pts.length : Int)) (MAX_CELLS : Int) ∧
        ∀ k : Fin MAX_CELLS, (k.val : Int) < network.num_cells →
          network'.cells k = network.cells k := by
  induction pts with
  | nil =>
    intro network hd
    refine ⟨network, rfl, hd, rfl, rfl, ?_, fun _ _ => rfl⟩
    have := hd.2.1
    simp only [List.length_nil, Nat.cast_zero, add_zero]
    omega
  | cons p ps ih =>
    intro network hd
    obtain ⟨n1, e1, d1, r1, f1, c1, k1⟩ := add_cell_dense network p.1 p.2 hd
    obtain ⟨n2, e2, d2, r2, f2, c2, k2⟩ := ih n1 d1
    refine ⟨n2, by simp only [add_cells, e1, e2], d2, r2.trans r1, f2.trans f1, ?_, ?_⟩
    · rw [c2, c1]
      have := hd.1
      simp only [List.length_cons, Nat.cast_add, Nat.cast_one]
      omega
    · intro k hk
      have hk1 : (k.val : Int) < n1.num_cells := by
        rw [c1]; have := k.isLt; have := hd.2.1; omega
      rw [k2 k hk1, k1 k hk]

theorem step_dense {F : Type} (network network' : CellularNetwork F) (op : Op F)
    (hd : Dense network) (h : step network op = .ok network') :
    Dense network' ∧ network.num_cells ≤ network'.num_cells ∧
      ∀ k : Fin MAX_CELLS, (k.val : Int) < network.num_cells →
        (network'.cells k).id = (network.cells k).id := by
  cases op with
  | add_cell x y =>
    obtain ⟨n1, e1, d1, -, -, c1, k1⟩ := add_cell_dense network x y hd
    simp only [step, e1] at h
    cases h
    refine ⟨d1, ?_, fun k hk => by rw [k1 k hk]⟩
    have := hd.2.1
    omega
  | assign_clusters =>
    have hf := assign_clusters_framed network network' h
    exact ⟨dense_framed hd hf, le_of_eq hf.1.symm, fun k _ => (hf.2.2.2 k).1⟩
  | assign_frequencies =>
    have hf := assign_frequencies_framed network network' h
    exact ⟨dense_framed hd hf, le_of_eq hf.1.symm, fun k _ => (hf.2.2.2 k).1⟩

theorem run_dense {F : Type} (ops : List (Op F)) :
    ∀ network network' : CellularNetwork F, Dense network → run network ops = .ok network' →
      Dense network' ∧ network.num_cells ≤ network'.num_cells ∧
        ∀ k : Fin MAX_CELLS, (k.val : Int) < network.num_cells →
          (network'.cells k).id = (network.cells k).id := by
  induction ops with
  | nil =>
    intro network network' hd h
    simp only [run] at h
    cases h
    exact ⟨hd, le_refl _, fun _ _ => rfl⟩
  | cons op ops ih =>
    intro network network' hd h
    simp only [run] at h
    split at h
    · rename_i n1 h1
      obtain ⟨d1, m1, k1⟩ := step_dense network n1 op hd h1
      obtain ⟨d2, m2, k2⟩ := ih n1 network' d1 h
      exact ⟨d2, le_trans m1 m2, fun k hk => by rw [k2 k (lt_of_lt_of_le hk m1), k1 k hk]⟩
    · cases h

theorem clusters_upto_idem {F : Type} (network : CellularNetwork F) :
    clusters_upto (clusters_upto network network.num_cells) network.num_cells
      = clusters_upto network network.num_cells := by
  simp only [clusters_upto]
  congr 1
  funext k
  by_cases hk : (k.val : Int) < network.num_cells
  · simp [hk]
  · simp [hk]

theorem assigned_idem {F : Type} (network : CellularNetwork F) :
    assigned (assigned network) = assigned network := by
  simp only [assigned]
  congr 1
  funext k
  by_cases hk : (k.val : Int) < network.num_cells
  · simp [hk]
  · simp [hk]

/-! ## Histories never fault under a nonzero configuration -/

theorem step_total {F : Type} (network : CellularNetwork F) (op : Op F) (hd : Dense network)
    (hrf : network.reuse_factor ≠ 0) (hnf : network.num_frequencies ≠ 0) :
    ∃ network', step network op = .ok network' ∧ Dense network' ∧
      network'.reuse_factor = network.reuse_factor ∧
      network'.num_frequencies = network.num_frequencies := by
  cases op with
  | add_cell x y =>
    obtain ⟨n1, e1, d1, r1, f1, -, -⟩ := add_cell_dense network x y hd
    exact ⟨n1, e1, d1, r1, f1⟩
  | assign_clusters =>
    have e := assign_clusters_eq network hd.2.1 (Or.inl hrf)
    have hf := assign_clusters_framed network _ e
    exact ⟨_, e, dense_framed hd hf, hf.2.1, hf.2.2.1⟩
  | assign_frequencies =>
    have e := assign_frequencies_eq network hd.2.1 (Or.inl hrf) (Or.inl hnf)
    have hf := assign_frequencies_framed network _ e
    exact ⟨_, e, dense_framed hd hf, hf.2.1, hf.2.2.1⟩

theorem run_total {F : Type} (ops : List (Op F)) :
    ∀ network : CellularNetwork F, Dense network → network.reuse_factor ≠ 0 →
      network.num_frequencies ≠ 0 → ∃ network', run network ops = .ok network' := by
  induction ops with
  | nil => intro network _ _ _; exact ⟨network, rfl⟩
  | cons op ops ih =>
    intro network hd hrf hnf
    obtain ⟨n1, e1, d1, r1, f1⟩ := step_total network op hd hrf hnf
    obtain ⟨n2, e2⟩ := ih n1 d1 (r1 ▸ hrf) (f1 ▸ hnf)
    exact ⟨n2, by simp only [run, e1, e2]⟩

/-! ## Claims on the registry and the assignment passes -/

/-- C1: in a network built by `initialize_network` with `reuseFactor ≥ 1`
and any number of `add_cell` calls, `assign_clusters` succeeds and leaves in
every tower a `cluster_id` equal to `id mod reuseFactor`, which lies in
`[0, reuseFactor)`. -/
theorem assign_clusters_spec {F : Type} (base : CellularNetwork F) (reuseFactor nf : Int)
    (pts : List (F × F)) (hrf : 1 ≤ reuseFactor) :
    ∃ network network' : CellularNetwork F,
      add_cells (initialize_network base reuseFactor nf) pts = .ok network ∧
      network.num_cells = min (pts.length : Int) (MAX_CELLS : Int) ∧
      assign_clusters network = .ok network' ∧
      network'.num_cells = network.num_cells ∧
      ∀ k : Fin MAX_CELLS, (k.val : Int) < network'.num_cells →
        (network'.cells k).cluster_id = (network'.cells k).id % reuseFactor ∧
        0 ≤ (network'.cells k).cluster_id ∧ (network'.cells k).cluster_id < reuseFactor := by
  obtain ⟨network, e1, d1, r1, -, c1, -⟩ :=
    add_cells_dense pts (initialize_network base reuseFactor nf) (initialize_network_dense base _ _)
  have hr : network.reuse_factor = reuseFactor := r1
  have e2 := assign_clusters_eq network d1.2.1 (Or.inl (by rw [hr]; omega))
  refine ⟨network, _, e1, ?_, e2, rfl, ?_⟩
  · rw [c1]; simp [initialize_network]
  · intro k hk
    have hk' : (k.val : Int) < network.num_cells := hk
    have hid := d1.2.2 k hk'
    have hk0 : (0 : Int) ≤ (k.val : Int) := Int.ofNat_nonneg _
    simp only [clusters_upto, hk', if_true, hid, hr]
    rw [Int.tmod_eq_emod hk0 (by omega)]
    exact ⟨rfl, Int.emod_nonneg _ (by omega), Int.emod_lt_of_pos _ (by omega)⟩

/-- Witness of C1: reuse factor 3 and three towers. -/
theorem assign_clusters_spec_witness :
    (1 : Int) ≤ 3 ∧
    ∃ network network' : CellularNetwork Int,
      add_cells (initialize_network blank 3 5) [(0, 0), (0, 0), (100, 100)] = .ok network ∧
      network.num_cells = min (([(0, 0), (0, 0), (100, 100)] : List (Int × Int)).length : Int)
        (MAX_CELLS : Int) ∧
      assign_clusters network = .ok network' ∧
      network'.num_cells = network.num_cells ∧
      ∀ k : Fin MAX_CELLS, (k.val : Int) < network'.num_cells →
        (network'.cells k).cluster_id = (network'.cells k).id % 3 ∧
        0 ≤ (network'.cells k).cluster_id ∧ (network'.cells k).cluster_id < 3 :=
  ⟨by decide, assign_clusters_spec blank 3 5 [(0, 0), (0, 0), (100, 100)] (by decide)⟩

/-- C2: in a network built by `initialize_network` with `reuseFactor ≥ 1` and
`frequencyPoolSize ≥ 1` and any number of `add_cell` calls,
`assign_frequencies` succeeds and leaves in every tower a `frequency` equal to
`(id mod reuseFactor) mod frequencyPoolSize`, which lies in
`[0, frequencyPoolSize)`. -/
theorem assign_frequencies_spec {F : Type} (base : CellularNetwork F)
    (reuseFactor frequencyPoolSize : Int) (pts : List (F × F))
    (hrf : 1 ≤ reuseFactor) (hnf : 1 ≤ frequencyPoolSize) :
    ∃ network network' : CellularNetwork F,
      add_cells (initialize_network base reuseFactor frequencyPoolSize) pts = .ok network ∧
      network.num_cells = min (pts.length : Int) (MAX_CELLS : Int) ∧
      assign_frequencies network = .ok network' ∧
      network'.num_cells = network.num_cells ∧
      ∀ k : Fin MAX_CELLS, (k.val : Int) < network'.num_cells →
        (network'.cells k).frequency
          = ((network'.cells k).id % reuseFactor) % frequencyPoolSize ∧
        0 ≤ (network'.cells k).frequency ∧ (network'.cells k).frequency < frequencyPoolSize := by
  obtain ⟨network, e1, d1, r1, f1, c1, -⟩ :=
    add_cells_dense pts (initialize_network base reuseFactor frequencyPoolSize)
      (initialize_network_dense base _ _)
  have hr : network.reuse_factor = reuseFactor := r1
  have hf : network.num_frequencies = frequencyPoolSize := f1
  have e2 := assign_frequencies_eq network d1.2.1 (Or.inl (by rw [hr]; omega))
    (Or.inl (by rw [hf]; omega))
  refine ⟨network, _, e1, ?_, e2, rfl, ?_⟩
  · rw [c1]; simp [initialize_network]
  · intro k hk
    have hk' : (k.val : Int) < network.num_cells := hk
    have hid := d1.2.2 k hk'
    have hk0 : (0 : Int) ≤ (k.val : Int) := Int.ofNat_nonneg _
    simp only [assigned, hk', if_true, hid, hr, hf]
    rw [Int.tmod_eq_emod hk0 (by omega),
      Int.tmod_eq_emod (Int.emod_nonneg _ (by omega)) (by omega)]
    exact ⟨rfl, Int.emod_nonneg _ (by omega), Int.emod_lt_of_pos _ (by omega)⟩

/-- Witness of C2: reuse factor 3, five frequencies and three towers. -/
theorem assign_frequencies_spec_witness :
    (1 : Int) ≤ 3 ∧ (1 : Int) ≤ 5 ∧
    ∃ network network' : CellularNetwork Int,
      add_cells (initialize_network blank 3 5) [(0, 0), (0, 0), (100, 100)] = .ok network ∧
      network.num_cells = min (([(0, 0), (0, 0), (100, 100)] : List (Int × Int)).length : Int)
        (MAX_CELLS : Int) ∧
      assign_frequencies network = .ok network' ∧
      network'.num_cells = network.num_cells ∧
      ∀ k : Fin MAX_CELLS, (k.val : Int) < network'.num_cells →
        (network'.cells k).frequency = ((network'.cells k).id % 3) % 5 ∧
        0 ≤ (network'.cells k).frequency ∧ (network'.cells k).frequency < 5 :=
  ⟨by decide, by decide,
    assign_frequencies_spec blank 3 5 [(0, 0), (0, 0), (100, 100)] (by decide) (by decide)⟩

/-- C5: below capacity (and with a count that is not negative), `add_cell`
succeeds and yields a network with one more tower; the new tower sits in slot
`num_cells`, has that number as `id`, the given position, and `-1` for both
`frequency` and `cluster_id`; every other slot and the configuration are
unchanged. -/
theorem add_cell_appends {F : Type} (network : CellularNetwork F) (x y : F)
    (h0 : 0 ≤ network.num_cells) (h1 : network.num_cells < (MAX_CELLS : Int)) :
    ∃ (network' : CellularNetwork F) (k : Fin MAX_CELLS),
      add_cell network x y = .ok network' ∧ (k.val : Int) = network.num_cells ∧
      network'.num_cells = network.num_cells + 1 ∧
      (network'.cells k).id = network.num_cells ∧
      (network'.cells k).x = x ∧ (network'.cells k).y = y ∧
      (network'.cells k).frequency = -1 ∧ (network'.cells k).cluster_id = -1 ∧
      (∀ m : Fin MAX_CELLS, (m.val : Int) < network.num_cells →
        network'.cells m = network.cells m) ∧
      (∀ m : Fin MAX_CELLS, m ≠ k → network'.cells m = network.cells m) ∧
      network'.reuse_factor = network.reuse_factor ∧
      network'.num_frequencies = network.num_frequencies := by
  obtain ⟨k, -, hkv⟩ := index_ok network.num_cells h0 h1
  refine ⟨_, k, add_cell_eq network x y k hkv, hkv, rfl, ?_, ?_, ?_, ?_, ?_, ?_, ?_, rfl, rfl⟩
  · simp
  · simp
  · simp
  · simp
  · simp
  · intro m hm
    have : m ≠ k := by
      intro h; subst h; omega
    simp [Function.update_noteq this]
  · intro m hm
    simp [Function.update_noteq hm]

/-- Witness of C5: a tower at `(3, 4)` added to a network of two towers. -/
theorem add_cell_appends_witness :
    0 ≤ two_cells.num_cells ∧ two_cells.num_cells < (MAX_CELLS : Int) ∧
    ∃ (network' : CellularNetwork Int) (k : Fin MAX_CELLS),
      add_cell two_cells 3 4 = .ok network' ∧ (k.val : Int) = two_cells.num_cells ∧
      network'.num_cells = two_cells.num_cells + 1 ∧
      (network'.cells k).id = two_cells.num_cells ∧
      (network'.cells k).x = 3 ∧ (network'.cells k).y = 4 ∧
      (network'.cells k).frequency = -1 ∧ (network'.cells k).cluster_id = -1 ∧
      (∀ m : Fin MAX_CELLS, (m.val : Int) < two_cells.num_cells →
        network'.cells m = two_cells.cells m) ∧
      (∀ m : Fin MAX_CELLS, m ≠ k → network'.cells m = two_cells.cells m) ∧
      network'.reuse_factor = two_cells.reuse_factor ∧
      network'.num_frequencies = two_cells.num_frequencies :=
  ⟨by decide, by decide, add_cell_appends two_cells 3 4 (by decide) (by decide)⟩

/-- C6: on a network that already holds `MAX_CELLS` towers `add_cell`
returns the network it was given, without a fault. -/
theorem add_cell_full {F : Type} (network : CellularNetwork F) (x y : F)
    (h : network.num_cells = (MAX_CELLS : Int)) :
    add_cell network x y = .ok network := by
  simp [add_cell, h]

/-- Witness of C6: a full record. -/
theorem add_cell_full_witness :
    full_network.num_cells = (MAX_CELLS : Int) ∧ add_cell full_network 3 4 = .ok full_network :=
  ⟨by decide, add_cell_full full_network 3 4 (by decide)⟩

/-- C7: every network reached from `initialize_network` by a sequence of
`add_cell`, `assign_clusters` and `assign_frequencies` has
`0 ≤ num_cells ≤ MAX_CELLS` and `cells[i].id = i` for every `i < num_cells`;
and whatever operations follow, the towers it holds keep their `id`. -/
theorem ids_dense_and_stable {F : Type} (base : CellularNetwork F) (rf nf : Int)
    (ops later : List (Op F)) (network network' : CellularNetwork F)
    (h : run (initialize_network base rf nf) ops = .ok network)
    (h' : run network later = .ok network') :
    (0 ≤ network.num_cells ∧ network.num_cells ≤ (MAX_CELLS : Int) ∧
      ∀ k : Fin MAX_CELLS, (k.val : Int) < network.num_cells →
        (network.cells k).id = (k.val : Int)) ∧
    network.num_cells ≤ network'.num_cells ∧
    ∀ k : Fin MAX_CELLS, (k.val : Int) < network.num_cells →
      (network'.cells k).id = (network.cells k).id := by
  have d := (run_dense ops _ network (initialize_network_dense base rf nf) h).1
  have d' := run_dense later network network' d h'
  exact ⟨d, d'.2.1, d'.2.2⟩

/-- Witness of C7: the sample history, followed by one more tower and a
cluster pass. -/
theorem ids_dense_and_stable_witness :
    ∃ network' : CellularNetwork Int,
      run (initialize_network blank 3 5) sample_ops = .ok sample_network ∧
      run sample_network [.add_cell 1 2, .assign_clusters] = .ok network' ∧
      (0 ≤ sample_network.num_cells ∧ sample_network.num_cells ≤ (MAX_CELLS : Int) ∧
        ∀ k : Fin MAX_CELLS, (k.val : Int) < sample_network.num_cells →
          (sample_network.cells k).id = (k.val : Int)) ∧
      sample_network.num_cells ≤ network'.num_cells ∧
      ∀ k : Fin MAX_CELLS, (k.val : Int) < sample_network.num_cells →
        (network'.cells k).id = (sample_network.cells k).id :=
  ⟨_, rfl, rfl,
    ids_dense_and_stable blank 3 5 sample_ops [.add_cell 1 2, .assign_clusters]
      sample_network _ rfl rfl⟩

/-- C9: on a network whose count is within the array, with
`reuse_factor ≥ 1` and `num_frequencies ≥ 1`, `assign_clusters` and
`assign_frequencies` succeed and are idempotent: a second run on the result
returns that same result. -/
theorem assign_idempotent {F : Type} (network : CellularNetwork F)
    (hn : network.num_cells ≤ (MAX_CELLS : Int))
    (hrf : 1 ≤ network.reuse_factor) (hnf : 1 ≤ network.num_frequencies) :
    (∃ n1, assign_clusters network = .ok n1 ∧ assign_clusters n1 = .ok n1) ∧
    (∃ n2, assign_frequencies network = .ok n2 ∧ assign_frequencies n2 = .ok n2) := by
  have hr : network.reuse_factor ≠ 0 := by omega
  have hf : network.num_frequencies ≠ 0 := by omega
  constructor
  · refine ⟨_, assign_clusters_eq network hn (Or.inl hr), ?_⟩
    have := assign_clusters_eq (clusters_upto network network.num_cells) hn (Or.inl hr)
    rw [this]
    exact congrArg Except.ok (clusters_upto_idem network)
  · refine ⟨_, assign_frequencies_eq network hn (Or.inl hr) (Or.inl hf), ?_⟩
    have := assign_frequencies_eq (assigned network) hn (Or.inl hr) (Or.inl hf)
    rw [this]
    exact congrArg Except.ok (assigned_idem network)

/-- Witness of C9: the sample network. -/
theorem assign_idempotent_witness :
    sample_network.num_cells ≤ (MAX_CELLS : Int) ∧ 1 ≤ sample_network.reuse_factor ∧
    1 ≤ sample_network.num_frequencies ∧
    (∃ n1, assign_clusters sample_network = .ok n1 ∧ assign_clusters n1 = .ok n1) ∧
    (∃ n2, assign_frequencies sample_network = .ok n2 ∧ assign_frequencies n2 = .ok n2) :=
  ⟨by decide, by decide, by decide,
    assign_idempotent sample_network (by decide) (by decide) (by decide)⟩

/-- C10, as stated, fails: for `reuseFactor = 0` and `frequencyPoolSize = 5`
the specified creation is an `InvalidConfiguration` error, while
`initialize_network` hands back a network (with no tower, reuse factor 0 and
five frequencies). -/
theorem initialize_network_accepts_zero :
    createNetwork_spec blank 0 5 = .error .InvalidConfiguration ∧
    createNetwork_spec blank 0 5 ≠ .ok (initialize_network blank 0 5) ∧
    (initialize_network blank 0 5).num_cells = 0 ∧
    (initialize_network blank 0 5).reuse_factor = 0 ∧
    (initialize_network blank 0 5).num_frequencies = 5 := by
  refine ⟨by simp [createNetwork_spec], ?_, rfl, rfl, rfl⟩
  simp [createNetwork_spec]

/-- C10, amended: `initialize_network` has no failure path; for all values
of the two parameters it yields a network with no tower and the given
configuration, leaving the array as it was, and this is the result of the
specified creation exactly when both parameters are positive. -/
theorem initialize_network_total {F : Type} (base : CellularNetwork F)
    (reuseFactor frequencyPoolSize : Int) :
    (initialize_network base reuseFactor frequencyPoolSize).num_cells = 0 ∧
    (initialize_network base reuseFactor frequencyPoolSize).reuse_factor = reuseFactor ∧
    (initialize_network base reuseFactor frequencyPoolSize).num_frequencies
      = frequencyPoolSize ∧
    (initialize_network base reuseFactor frequencyPoolSize).cells = base.cells ∧
    (createNetwork_spec base reuseFactor frequencyPoolSize
        = .ok (initialize_network base reuseFactor frequencyPoolSize)
      ↔ 0 < reuseFactor ∧ 0 < frequencyPoolSize) := by
  refine ⟨rfl, rfl, rfl, rfl, ?_⟩
  unfold createNetwork_spec
  by_cases h : reuseFactor ≤ 0 ∨ frequencyPoolSize ≤ 0
  · simp only [h, if_true]
    constructor
    · intro h'; cases h'
    · intro h'; omega
  · simp only [h, if_false]
    constructor
    · intro _; omega
    · intro _; rfl

/-! ## Claims on the interference detector -/

theorem check_interference_eq {F : Type} [DoubleArith F] (network : CellularNetwork F)
    (ka kb : Fin MAX_CELLS) (min_distance : F) :
    check_interference network (ka.val : Int) (kb.val : Int) min_distance
      = .ok (if (network.cells ka).frequency = (network.cells kb).frequency ∧
              DoubleArith.lt
                (calculate_distance (network.cells ka).x (network.cells ka).y
                  (network.cells kb).x (network.cells kb).y) min_distance = true
            then 1 else 0) := by
  simp only [check_interference, load_fin]
  split <;> rfl

/-- C3: for two valid tower indices of a network whose count is within the
array, `check_interference` reads both towers and returns `1` exactly when
their frequencies are equal and the computed distance
`sqrt(pow(xb - xa, 2) + pow(yb - ya, 2))` is below `minDistance` under `<`;
in every other case it returns `0`, in particular when the distance equals
`minDistance`. -/
theorem check_interference_iff {F : Type} [DoubleArith F] (network : CellularNetwork F)
    (a b : Int) (minDistance : F) (hn : network.num_cells ≤ (MAX_CELLS : Int))
    (ha0 : 0 ≤ a) (ha : a < network.num_cells) (hb0 : 0 ≤ b) (hb : b < network.num_cells) :
    ∃ ta tb : CellTower F, load network a = .ok ta ∧ load network b = .ok tb ∧
      (check_interference network a b minDistance = .ok 1 ↔
        ta.frequency = tb.frequency ∧
        DoubleArith.lt
          (DoubleArith.sqrt
            (DoubleArith.add
              (DoubleArith.pow (DoubleArith.sub tb.x ta.x) (DoubleArith.ofInt 2))
              (DoubleArith.pow (DoubleArith.sub tb.y ta.y) (DoubleArith.ofInt 2))))
          minDistance = true) ∧
      (check_interference network a b minDistance ≠ .ok 1 →
        check_interference network a b minDistance = .ok 0) ∧
      (minDistance = calculate_distance ta.x ta.y tb.x tb.y →
        check_interference network a b minDistance = .ok 0) := by
  obtain ⟨ka, -, hka⟩ := index_ok a ha0 (lt_of_lt_of_le ha hn)
  obtain ⟨kb, -, hkb⟩ := index_ok b hb0 (lt_of_lt_of_le hb hn)
  have hc := check_interference_eq network ka kb minDistance
  rw [hka, hkb] at hc
  have la := load_fin network ka
  have lb := load_fin network kb
  rw [hka] at la
  rw [hkb] at lb
  refine ⟨_, _, la, lb, ?_, ?_, ?_⟩
  · by_cases hp : (network.cells ka).frequency = (network.cells kb).frequency ∧
        DoubleArith.lt
          (calculate_distance (network.cells ka).x (network.cells ka).y
            (network.cells kb).x (network.cells kb).y) minDistance = true
    · rw [hc, if_pos hp]
      exact ⟨fun _ => hp, fun _ => rfl⟩
    · rw [hc, if_neg hp]
      constructor
      · intro h; cases h
      · intro h; exact absurd h hp
  · rw [hc]
    split
    · intro h; exact absurd rfl h
    · intro _; rfl
  · intro hd
    rw [hc, hd, DoubleArith.lt_irrefl]
    simp

/-- Witness of C3: towers 0 and 1 of a network of two towers, threshold 10. -/
theorem check_interference_iff_witness :
    two_cells.num_cells ≤ (MAX_CELLS : Int) ∧ (0 : Int) ≤ 0 ∧ 0 < two_cells.num_cells ∧
    (0 : Int) ≤ 1 ∧ 1 < two_cells.num_cells ∧
    ∃ ta tb : CellTower Int, load two_cells 0 = .ok ta ∧ load two_cells 1 = .ok tb ∧
      (check_interference two_cells 0 1 10 = .ok 1 ↔
        ta.frequency = tb.frequency ∧
        DoubleArith.lt
          (DoubleArith.sqrt
            (DoubleArith.add
              (DoubleArith.pow (DoubleArith.sub tb.x ta.x) (DoubleArith.ofInt 2))
              (DoubleArith.pow (DoubleArith.sub tb.y ta.y) (DoubleArith.ofInt 2))))
          10 = true) ∧
      (check_interference two_cells 0 1 10 ≠ .ok 1 →
        check_interference two_cells 0 1 10 = .ok 0) ∧
      ((10 : Int) = calculate_distance ta.x ta.y tb.x tb.y →
        check_interference two_cells 0 1 10 = .ok 0) :=
  ⟨by decide, by decide, by decide, by decide, by decide,
    check_interference_iff two_cells 0 1 10 (by decide) (by decide) (by decide) (by decide)
      (by decide)⟩

theorem hit_fin {F : Type} [DoubleArith F] (network : CellularNetwork F) (min_distance : F)
    (ka kb : Fin MAX_CELLS) :
    hit network min_distance (ka.val : Int) (kb.val : Int) = true ↔
      check_interference network (ka.val : Int) (kb.val : Int) min_distance = .ok 1 := by
  unfold hit
  rw [check_interference_eq]
  by_cases hp : (network.cells ka).frequency = (network.cells kb).frequency ∧
      DoubleArith.lt
        (calculate_distance (network.cells ka).x (network.cells ka).y
          (network.cells kb).x (network.cells kb).y) min_distance = true
  · simp only [if_pos hp]
    simp
  · simp only [if_neg hp]
    simp

theorem row_succ {F : Type} [DoubleArith F] (network : CellularNetwork F) (min_distance : F)
    (i lo : Int) (k : Nat) :
    row network min_distance i lo (k + 1)
      = row network min_distance i lo k
        ++ (if hit network min_distance i (lo + (k : Int)) = true then [(i, lo + (k : Int))]
            else []) := by
  simp only [row, List.range_succ, List.map_append, List.filter_append, List.map_cons,
    List.map_nil]
  congr 1
  by_cases h : hit network min_distance i (lo + (k : Int)) = true
  · simp [List.filter, h]
  · simp [List.filter, h]

theorem inner_body_eq {F : Type} [DoubleArith F] (network : CellularNetwork F)
    (min_distance : F) (ki kj : Fin MAX_CELLS) (s : List (Int × Int) × Int) :
    inner_body network min_distance (ki.val : Int) s (kj.val : Int)
      = .ok (if hit network min_distance (ki.val : Int) (kj.val : Int) = true
          then (s.1 ++ [((ki.val : Int), (kj.val : Int))], s.2 + 1) else s) := by
  unfold inner_body hit
  rw [check_interference_eq]
  by_cases hp : (network.cells ki).frequency = (network.cells kj).frequency ∧
      DoubleArith.lt
        (calculate_distance (network.cells ki).x (network.cells ki).y
          (network.cells kj).x (network.cells kj).y) min_distance = true
  · simp only [if_pos hp]
    simp
  · simp only [if_neg hp]
    simp

theorem inner_loop_eq {F : Type} [DoubleArith F] (network : CellularNetwork F)
    (min_distance : F) (i lo : Int) (k : Nat) (s : List (Int × Int) × Int)
    (hi0 : 0 ≤ i) (hi : i < (MAX_CELLS : Int)) (hlo : 0 ≤ lo)
    (hk : lo + (k : Int) ≤ (MAX_CELLS : Int)) :
    iterate (inner_body network min_distance i) k lo s
      = .ok (s.1 ++ row network min_distance i lo k,
          s.2 + ((row network min_distance i lo k).length : Int)) := by
  have key := iterate_eq (inner_body network min_distance i) k
    (fun t => (s.1 ++ row network min_distance i lo t,
      s.2 + ((row network min_distance i lo t).length : Int))) lo (by
    intro t ht
    obtain ⟨ki, -, hki⟩ := index_ok i hi0 hi
    obtain ⟨kj, -, hkj⟩ := index_ok (lo + (t : Int)) (by omega) (by omega)
    have hb := inner_body_eq network min_distance ki kj
      (s.1 ++ row network min_distance i lo t,
        s.2 + ((row network min_distance i lo t).length : Int))
    rw [hki, hkj] at hb
    simp only at hb ⊢
    rw [hb, row_succ]
    by_cases h : hit network min_distance i (lo + (t : Int)) = true
    · rw [if_pos h, if_pos h]
      simp only [List.append_assoc, List.length_append, List.length_cons,
        List.length_nil, Nat.cast_add, Nat.cast_one, zero_add, Nat.cast_zero]
      congr 2
      ring
    · rw [if_neg h, if_neg h, List.append_nil])
  simpa [row] using key

theorem outer_loop_eq {F : Type} [DoubleArith F] (network : CellularNetwork F)
    (min_distance : F) (hn : network.num_cells ≤ (MAX_CELLS : Int)) (k : Nat)
    (hk : (k : Int) ≤ max network.num_cells 0) :
    iterate (outer_body network min_distance) k 0 ([], 0)
      = .ok (rows network min_distance k, ((rows network min_distance k).length : Int)) := by
  have key := iterate_eq (outer_body network min_distance) k
    (fun t => (rows network min_distance t, ((rows network min_distance t).length : Int))) 0 (by
    intro t ht
    simp only [zero_add, outer_body, for_loop]
    rw [inner_loop_eq network min_distance (t : Int) ((t : Int) + 1) _ _
      (Int.ofNat_nonneg t) (by omega) (by omega) (by omega)]
    simp only [rows, List.length_append, Nat.cast_add])
  simpa [rows] using key

theorem simulate_eq {F : Type} [DoubleArith F] (network : CellularNetwork F)
    (min_distance : F) (hn : network.num_cells ≤ (MAX_CELLS : Int)) :
    simulate_interference_check network min_distance
      = .ok { pairs := rows network min_distance network.num_cells.toNat
              interference_count :=
                ((rows network min_distance network.num_cells.toNat).length : Int)
              none_detected :=
                decide (((rows network min_distance network.num_cells.toNat).length : Int)
                  = 0) } := by
  have h := outer_loop_eq network min_distance hn network.num_cells.toNat (by omega)
  simp only [simulate_interference_check, for_loop, sub_zero, h]

theorem mem_row {F : Type} [DoubleArith F] (network : CellularNetwork F) (min_distance : F)
    (i lo : Int) (k : Nat) (a b : Int) :
    (a, b) ∈ row network min_distance i lo k ↔
      a = i ∧ lo ≤ b ∧ b < lo + (k : Int) ∧ hit network min_distance i b = true := by
  simp only [row, List.mem_filter, List.mem_map, List.mem_range, Prod.mk.injEq]
  constructor
  · rintro ⟨⟨t, ht, rfl, rfl⟩, hh⟩
    exact ⟨rfl, by omega, by omega, hh⟩
  · rintro ⟨rfl, h1, h2, hh⟩
    exact ⟨⟨(b - lo).toNat, by omega, rfl, by omega⟩, hh⟩

theorem mem_rows {F : Type} [DoubleArith F] (network : CellularNetwork F) (min_distance : F)
    (m : Nat) (a b : Int) :
    (a, b) ∈ rows network min_distance m ↔
      0 ≤ a ∧ a < (m : Int) ∧ a < b ∧ b < network.num_cells ∧
        hit network min_distance a b = true := by
  induction m with
  | zero =>
    simp only [rows, List.not_mem_nil, Nat.cast_zero, false_iff]
    intro h
    omega
  | succ m ih =>
    simp only [rows, List.mem_append, ih, mem_row]
    constructor
    · rintro (⟨h0, h1, h2, h3, h4⟩ | ⟨rfl, h1, h2, h3⟩)
      · exact ⟨h0, by push_cast; omega, h2, h3, h4⟩
      · exact ⟨Int.ofNat_nonneg m, by push_cast; omega, by omega, by omega, h3⟩
    · rintro ⟨h0, h1, h2, h3, h4⟩
      by_cases hm : a < (m : Int)
      · exact Or.inl ⟨h0, hm, h2, h3, h4⟩
      · have ha : a = (m : Int) := by push_cast at h1; omega
        subst ha
        exact Or.inr ⟨rfl, by omega, by omega, h4⟩

theorem pairwise_row {F : Type} [DoubleArith F] (network : CellularNetwork F)
    (min_distance : F) (i lo : Int) (k : Nat) :
    (row network min_distance i lo k).Pairwise lex_lt := by
  unfold row
  apply List.Pairwise.filter
  rw [List.pairwise_map]
  refine List.Pairwise.imp ?_ (List.pairwise_lt_range k)
  intro s t hst
  exact Or.inr ⟨rfl, by simp only; omega⟩

theorem pairwise_rows {F : Type} [DoubleArith F] (network : CellularNetwork F)
    (min_distance : F) (m : Nat) :
    (rows network min_distance m).Pairwise lex_lt := by
  induction m with
  | zero => exact List.Pairwise.nil
  | succ m ih =>
    simp only [rows]
    rw [List.pairwise_append]
    refine ⟨ih, pairwise_row _ _ _ _ _, ?_⟩
    rintro ⟨a, b⟩ hp ⟨c, d⟩ hq
    rw [mem_rows] at hp
    rw [mem_row] at hq
    exact Or.inl (by simp only; omega)

theorem lex_lt_ne (p q : Int × Int) (h : lex_lt p q) : p ≠ q := by
  intro e
  subst e
  rcases h with h | ⟨-, h⟩ <;> exact lt_irrefl _ h

theorem hit_valid {F : Type} [DoubleArith F] (network : CellularNetwork F) (min_distance : F)
    (i j : Int) (hi0 : 0 ≤ i) (hi : i < (MAX_CELLS : Int)) (hj0 : 0 ≤ j)
    (hj : j < (MAX_CELLS : Int)) :
    hit network min_distance i j = true ↔
      check_interference network i j min_distance = .ok 1 := by
  obtain ⟨ki, -, hki⟩ := index_ok i hi0 hi
  obtain ⟨kj, -, hkj⟩ := index_ok j hj0 hj
  have := hit_fin network min_distance ki kj
  rwa [hki, hkj] at this

theorem mem_pairs {F : Type} [DoubleArith F] (network : CellularNetwork F) (min_distance : F)
    (hn : network.num_cells ≤ (MAX_CELLS : Int)) (i j : Int) :
    (i, j) ∈ rows network min_distance network.num_cells.toNat ↔
      0 ≤ i ∧ i < j ∧ j < network.num_cells ∧
        check_interference network i j min_distance = .ok 1 := by
  rw [mem_rows]
  constructor
  · rintro ⟨h0, h1, h2, h3, h4⟩
    exact ⟨h0, h2, h3, (hit_valid network min_distance i j h0 (by omega) (by omega)
      (by omega)).1 h4⟩
  · rintro ⟨h0, h2, h3, h4⟩
    exact ⟨h0, by omega, h2, h3, (hit_valid network min_distance i j h0 (by omega) (by omega)
      (by omega)).2 h4⟩

/-- C4: on a network whose count `n` is within the array,
`simulate_interference_check` succeeds, and the pairs it reports are those
`(i, j)` with `0 ≤ i < j < n` for which `check_interference` returns `1`,
in strictly ascending lexicographic order, hence each once; every reported
pair has `i < j`; the count equals the number of reported pairs; and the "no
interference" line is written exactly when no pair is reported. -/
theorem simulate_interference_check_spec {F : Type} [DoubleArith F]
    (network : CellularNetwork F) (minDistance : F)
    (hn : network.num_cells ≤ (MAX_CELLS : Int)) :
    ∃ r : Report, simulate_interference_check network minDistance = .ok r ∧
      (∀ i j : Int, (i, j) ∈ r.pairs ↔
        0 ≤ i ∧ i < j ∧ j < network.num_cells ∧
          check_interference network i j minDistance = .ok 1) ∧
      r.pairs.Pairwise lex_lt ∧ r.pairs.Nodup ∧
      (∀ p ∈ r.pairs, p.1 < p.2) ∧
      r.interference_count = (r.pairs.length : Int) ∧
      (r.none_detected = true ↔ r.pairs = []) ∧
      (r.pairs = [] ↔ ∀ i j : Int, 0 ≤ i → i < j → j < network.num_cells →
        check_interference network i j minDistance ≠ .ok 1) := by
  refine ⟨_, simulate_eq network minDistance hn, mem_pairs network minDistance hn,
    pairwise_rows _ _ _, ?_, ?_, rfl, ?_, ?_⟩
  · exact List.Pairwise.imp (fun {p q} h => lex_lt_ne p q h) (pairwise_rows _ _ _)
  · rintro ⟨a, b⟩ hp
    exact ((mem_pairs network minDistance hn a b).1 hp).2.1
  · simp only [decide_eq_true_eq, Nat.cast_eq_zero, List.length_eq_zero]
  · simp only [List.eq_nil_iff_forall_not_mem, Prod.forall, mem_pairs network minDistance hn]
    constructor
    · intro h i j h0 h1 h2 h3
      exact h i j ⟨h0, h1, h2, h3⟩
    · rintro h i j ⟨h0, h1, h2, h3⟩
      exact h i j h0 h1 h2 h3

/-- Witness of C4: four towers on one spot sharing a frequency, threshold 10. -/
theorem simulate_interference_check_spec_witness :
    crowded_network.num_cells ≤ (MAX_CELLS : Int) ∧
    ∃ r : Report, simulate_interference_check crowded_network 10 = .ok r ∧
      (∀ i j : Int, (i, j) ∈ r.pairs ↔
        0 ≤ i ∧ i < j ∧ j < crowded_network.num_cells ∧
          check_interference crowded_network i j 10 = .ok 1) ∧
      r.pairs.Pairwise lex_lt ∧ r.pairs.Nodup ∧
      (∀ p ∈ r.pairs, p.1 < p.2) ∧
      r.interference_count = (r.pairs.length : Int) ∧
      (r.none_detected = true ↔ r.pairs = []) ∧
      (r.pairs = [] ↔ ∀ i j : Int, 0 ≤ i → i < j → j < crowded_network.num_cells →
        check_interference crowded_network i j 10 ≠ .ok 1) :=
  ⟨by decide, simulate_interference_check_spec crowded_network 10 (by decide)⟩

theorem check_interference_mono {F : Type} [DoubleArith F] (network : CellularNetwork F)
    (d1 d2 : F) (hlt : DoubleArith.lt d1 d2 = true) (ka kb : Fin MAX_CELLS)
    (h : check_interference network (ka.val : Int) (kb.val : Int) d1 = .ok 1) :
    check_interference network (ka.val : Int) (kb.val : Int) d2 = .ok 1 := by
  rw [check_interference_eq] at h ⊢
  by_cases hp : (network.cells ka).frequency = (network.cells kb).frequency ∧
      DoubleArith.lt
        (calculate_distance (network.cells ka).x (network.cells ka).y
          (network.cells kb).x (network.cells kb).y) d1 = true
  · rw [if_pos ⟨hp.1, DoubleArith.lt_trans _ _ _ hp.2 hlt⟩]
  · rw [if_neg hp] at h
    cases h

/-- C8: on a network whose count is within the array, if
`minDistance1 < minDistance2` then both interference checks succeed and every
pair reported for `minDistance1` is reported for `minDistance2`. -/
theorem interference_monotone {F : Type} [DoubleArith F] (network : CellularNetwork F)
    (minDistance1 minDistance2 : F) (hn : network.num_cells ≤ (MAX_CELLS : Int))
    (hlt : DoubleArith.lt minDistance1 minDistance2 = true) :
    ∃ r1 r2 : Report, simulate_interference_check network minDistance1 = .ok r1 ∧
      simulate_interference_check network minDistance2 = .ok r2 ∧
      ∀ p : Int × Int, p ∈ r1.pairs → p ∈ r2.pairs := by
  refine ⟨_, _, simulate_eq network minDistance1 hn, simulate_eq network minDistance2 hn, ?_⟩
  rintro ⟨i, j⟩ hp
  simp only at hp ⊢
  rw [mem_pairs network _ hn] at hp ⊢
  obtain ⟨h0, h1, h2, h3⟩ := hp
  refine ⟨h0, h1, h2, ?_⟩
  obtain ⟨ki, -, hki⟩ := index_ok i h0 (by omega)
  obtain ⟨kj, -, hkj⟩ := index_ok j (by omega) (by omega)
  have := check_interference_mono network minDistance1 minDistance2 hlt ki kj
  rw [hki, hkj] at this
  exact this h3

/-- Witness of C8: four towers on one spot sharing a frequency, thresholds 1 and 10. -/
theorem interference_monotone_witness :
    crowded_network.num_cells ≤ (MAX_CELLS : Int) ∧
    DoubleArith.lt (1 : Int) (10 : Int) = true ∧
    ∃ r1 r2 : Report, simulate_interference_check crowded_network 1 = .ok r1 ∧
      simulate_interference_check crowded_network 10 = .ok r2 ∧
      ∀ p : Int × Int, p ∈ r1.pairs → p ∈ r2.pairs :=
  ⟨by decide, by decide, interference_monotone crowded_network 1 10 (by decide) (by decide)⟩

/-! ## Towers as `add_cell` leaves them -/

/-- C11, as stated, fails: on two towers added at `(0, 0)` and never given a
frequency, the interference check with threshold 1 raises nothing; it
completes and reports the pair `(0, 1)`. -/
theorem unassigned_check_reports :
    add_cells (initialize_network blank 3 5) [(0, 0), (0, 0)] = .ok unassigned_pair ∧
    (∃ r : Report, simulate_interference_check unassigned_pair 1 = .ok r ∧
      r.pairs = [(0, 1)] ∧ r.interference_count = 1 ∧ r.none_detected = false) ∧
    ∀ e : Fault, simulate_interference_check unassigned_pair 1 ≠ .error e := by
  have h : simulate_interference_check unassigned_pair 1
      = .ok { pairs := [(0, 1)], interference_count := 1, none_detected := false } := by
    rfl
  refine ⟨rfl, ⟨_, h, rfl, rfl, rfl⟩, ?_⟩
  intro e he
  rw [h] at he
  cases he

/-- C11, amended: on every network that has had at least one tower added and
on which `assign_frequencies` has never been invoked, the interference check
completes without raising anything, and reports the pairs `(i, j)` with
`0 ≤ i < j < n` for which `check_interference` returns `1`, counted in
`interference_count`. -/
theorem unassigned_check_completes {F : Type} [DoubleArith F] (base : CellularNetwork F)
    (rf nf : Int) (pts : List (F × F)) (minDistance : F) (hne : pts ≠ []) :
    ∃ (network : CellularNetwork F) (r : Report),
      add_cells (initialize_network base rf nf) pts = .ok network ∧
      1 ≤ network.num_cells ∧
      simulate_interference_check network minDistance = .ok r ∧
      (∀ i j : Int, (i, j) ∈ r.pairs ↔
        0 ≤ i ∧ i < j ∧ j < network.num_cells ∧
          check_interference network i j minDistance = .ok 1) ∧
      r.interference_count = (r.pairs.length : Int) := by
  obtain ⟨network, e1, d1, -, -, c1, -⟩ :=
    add_cells_dense pts (initialize_network base rf nf) (initialize_network_dense base rf nf)
  refine ⟨network, _, e1, ?_, simulate_eq network minDistance d1.2.1,
    mem_pairs network minDistance d1.2.1, rfl⟩
  rw [c1]
  have : 0 < pts.length := List.length_pos.mpr hne
  simp only [initialize_network, MAX_CELLS]
  omega

/-- Witness of C11 (amended): two towers on one spot, threshold 1. -/
theorem unassigned_check_completes_witness :
    ([(0, 0), (0, 0)] : List (Int × Int)) ≠ [] ∧
    ∃ (network : CellularNetwork Int) (r : Report),
      add_cells (initialize_network blank 3 5) [(0, 0), (0, 0)] = .ok network ∧
      1 ≤ network.num_cells ∧
      simulate_interference_check network 1 = .ok r ∧
      (∀ i j : Int, (i, j) ∈ r.pairs ↔
        0 ≤ i ∧ i < j ∧ j < network.num_cells ∧
          check_interference network i j 1 = .ok 1) ∧
      r.interference_count = (r.pairs.length : Int) :=
  ⟨by decide, unassigned_check_completes blank 3 5 [(0, 0), (0, 0)] 1 (by decide)⟩

theorem calculate_distance_symm {F : Type} [DoubleArith F]
    (hsq : ∀ u v : F, DoubleArith.pow (DoubleArith.sub u v) (DoubleArith.ofInt 2)
      = DoubleArith.pow (DoubleArith.sub v u) (DoubleArith.ofInt 2))
    (x1 y1 x2 y2 : F) :
    calculate_distance x1 y1 x2 y2 = calculate_distance x2 y2 x1 y1 := by
  simp only [calculate_distance]
  rw [hsq x2 x1, hsq y2 y1]

/-- C19: on a carrier where the square of a difference does not depend on the
order of its operands (as for C doubles, where `a - b` and `b - a` differ in
sign only and `pow(·, 2)` ignores the sign), `check_interference` gives the
same result for `(a, b)` and `(b, a)`, for all valid tower indices. -/
theorem check_interference_symm {F : Type} [DoubleArith F] (network : CellularNetwork F)
    (a b : Int) (minDistance : F)
    (hsq : ∀ u v : F, DoubleArith.pow (DoubleArith.sub u v) (DoubleArith.ofInt 2)
      = DoubleArith.pow (DoubleArith.sub v u) (DoubleArith.ofInt 2))
    (hn : network.num_cells ≤ (MAX_CELLS : Int))
    (ha0 : 0 ≤ a) (ha : a < network.num_cells) (hb0 : 0 ≤ b) (hb : b < network.num_cells) :
    check_interference network a b minDistance = check_interference network b a minDistance ∧
    (check_interference network a b minDistance = .ok 1 ∨
      check_interference network a b minDistance = .ok 0) := by
  obtain ⟨ka, -, hka⟩ := index_ok a ha0 (lt_of_lt_of_le ha hn)
  obtain ⟨kb, -, hkb⟩ := index_ok b hb0 (lt_of_lt_of_le hb hn)
  have h1 := check_interference_eq network ka kb minDistance
  have h2 := check_interference_eq network kb ka minDistance
  rw [hka, hkb] at h1
  rw [hka, hkb] at h2
  rw [calculate_distance_symm hsq (network.cells kb).x (network.cells kb).y
    (network.cells ka).x (network.cells ka).y] at h2
  constructor
  · rw [h1, h2]
    congr 1
    by_cases hp : (network.cells ka).frequency = (network.cells kb).frequency ∧
        DoubleArith.lt
          (calculate_distance (network.cells ka).x (network.cells ka).y
            (network.cells kb).x (network.cells kb).y) minDistance = true
    · rw [if_pos hp, if_pos ⟨hp.1.symm, hp.2⟩]
    · rw [if_neg hp, if_neg (fun h => hp ⟨h.1.symm, h.2⟩)]
  · rw [h1]
    split
    · exact Or.inl rfl
    · exact Or.inr rfl

/-- Witness of C19: towers 0 and 1 of a network of two towers on integer
coordinates, threshold 10. -/
theorem check_interference_symm_witness :
    (∀ u v : Int, DoubleArith.pow (DoubleArith.sub u v) (DoubleArith.ofInt 2)
      = DoubleArith.pow (DoubleArith.sub v u) (DoubleArith.ofInt 2)) ∧
    two_cells.num_cells ≤ (MAX_CELLS : Int) ∧ (0 : Int) ≤ 0 ∧ 0 < two_cells.num_cells ∧
    (0 : Int) ≤ 1 ∧ 1 < two_cells.num_cells ∧
    check_interference two_cells 0 1 10 = check_interference two_cells 1 0 10 ∧
    (check_interference two_cells 0 1 10 = .ok 1 ∨
      check_interference two_cells 0 1 10 = .ok 0) :=
  have hsq : ∀ u v : Int, DoubleArith.pow (DoubleArith.sub u v) (DoubleArith.ofInt 2)
      = DoubleArith.pow (DoubleArith.sub v u) (DoubleArith.ofInt 2) := fun u v => by
    show (u - v) ^ 2 = (v - u) ^ 2
    ring
  ⟨hsq, by decide, by decide, by decide, by decide, by decide,
    check_interference_symm two_cells 0 1 10 hsq (by decide) (by decide) (by decide)
      (by decide) (by decide)⟩

/-! ## Faults of the assignment passes -/

theorem iterate_first_error {σ : Type} (body : σ → Int → Except Fault σ) (k : Nat) (i : Int)
    (s : σ) (e : Fault) (h : body s i = .error e) :
    iterate body (k + 1) i s = .error e := by
  simp only [iterate, h]

theorem assign_clusters_div_zero {F : Type} (network : CellularNetwork F)
    (hrf : network.reuse_factor = 0) (hpos : 0 < network.num_cells) :
    assign_clusters network = .error .div_by_zero := by
  obtain ⟨k, hk⟩ : ∃ k, (network.num_cells - 0).toNat = k + 1 :=
    ⟨(network.num_cells - 0).toNat - 1, by omega⟩
  simp only [assign_clusters, for_loop, hk]
  apply iterate_first_error
  simp [assign_clusters_body, c_mod, hrf]

theorem assign_frequencies_div_zero {F : Type} (network : CellularNetwork F)
    (hn : network.num_cells ≤ (MAX_CELLS : Int)) (hpos : 0 < network.num_cells)
    (hz : network.reuse_factor = 0 ∨ network.num_frequencies = 0) :
    assign_frequencies network = .error .div_by_zero := by
  by_cases hrf : network.reuse_factor = 0
  · simp only [assign_frequencies, assign_clusters_div_zero network hrf hpos]
  · have hnf : network.num_frequencies = 0 := by
      rcases hz with h | h
      · exact absurd h hrf
      · exact h
    obtain ⟨k, hk⟩ : ∃ k, (network.num_cells - 0).toNat = k + 1 :=
      ⟨(network.num_cells - 0).toNat - 1, by omega⟩
    simp only [assign_frequencies, assign_clusters_eq network hn (Or.inl hrf), for_loop]
    have hk' : ((clusters_upto network network.num_cells).num_cells - 0).toNat = k + 1 := hk
    rw [hk']
    apply iterate_first_error
    have hl := load_fin (clusters_upto network network.num_cells) ⟨0, by decide⟩
    simp only [Nat.cast_zero] at hl
    have hnf' : (clusters_upto network network.num_cells).num_frequencies = 0 := hnf
    simp [assign_frequencies_body, hl, c_mod, hnf']

/-! ## Further claims on the assignment passes -/

/-- C14: for two networks with the same `reuse_factor`, `num_frequencies` and
`num_cells` (within the array), whatever positions and earlier labels their
towers hold: when both configuration values are nonzero (or no tower is in
use) `assign_frequencies` succeeds on both, keeps the count, and leaves at
each index `k` in use the same `cluster_id`, namely `k % reuse_factor`, and
the same `frequency`, namely `(k % reuse_factor) % num_frequencies`, with `%`
the C remainder; in the remaining case, a zero configuration value with a
tower in use, it stops on both with the division-by-zero fault. -/
theorem assignment_deterministic {F : Type} (n1 n2 : CellularNetwork F)
    (hr : n1.reuse_factor = n2.reuse_factor) (hf : n1.num_frequencies = n2.num_frequencies)
    (hc : n1.num_cells = n2.num_cells) (hn : n1.num_cells ≤ (MAX_CELLS : Int)) :
    ((n1.reuse_factor ≠ 0 ∧ n1.num_frequencies ≠ 0) ∨ n1.num_cells ≤ 0 →
      ∃ a b : CellularNetwork F,
        assign_frequencies n1 = .ok a ∧ assign_frequencies n2 = .ok b ∧
        a.num_cells = n1.num_cells ∧ b.num_cells = n1.num_cells ∧
        ∀ k : Fin MAX_CELLS, (k.val : Int) < n1.num_cells →
          (a.cells k).cluster_id = (b.cells k).cluster_id ∧
          (a.cells k).frequency = (b.cells k).frequency ∧
          (a.cells k).cluster_id = Int.tmod (k.val : Int) n1.reuse_factor ∧
          (a.cells k).frequency
            = Int.tmod (Int.tmod (k.val : Int) n1.reuse_factor) n1.num_frequencies) ∧
    (¬ ((n1.reuse_factor ≠ 0 ∧ n1.num_frequencies ≠ 0) ∨ n1.num_cells ≤ 0) →
      assign_frequencies n1 = .error .div_by_zero ∧
      assign_frequencies n2 = .error .div_by_zero) := by
  constructor
  · intro hok
    have h1 : n1.reuse_factor ≠ 0 ∨ n1.num_cells ≤ 0 := hok.imp (fun h => h.1) id
    have h2 : n1.num_frequencies ≠ 0 ∨ n1.num_cells ≤ 0 := hok.imp (fun h => h.2) id
    refine ⟨_, _, assign_frequencies_eq n1 hn h1 h2,
      assign_frequencies_eq n2 (hc ▸ hn) (hr ▸ hc ▸ h1) (hf ▸ hc ▸ h2), rfl, hc.symm, ?_⟩
    intro k hk
    have hk2 : (k.val : Int) < n2.num_cells := hc ▸ hk
    refine ⟨?_, ?_, ?_, ?_⟩ <;> simp [assigned, hk, hk2, hr, hf]
  · intro hok
    have hpos : 0 < n1.num_cells := by
      by_contra h
      exact hok (Or.inr (by omega))
    have hz : n1.reuse_factor = 0 ∨ n1.num_frequencies = 0 := by
      by_contra h
      exact hok (Or.inl ⟨fun e => h (Or.inl e), fun e => h (Or.inr e)⟩)
    exact ⟨assign_frequencies_div_zero n1 hn hpos hz,
      assign_frequencies_div_zero n2 (hc ▸ hn) (hc ▸ hpos) (hr ▸ hf ▸ hz)⟩

/-- Witness of C14: the sample network (reuse factor 3, five frequencies,
four towers) and a copy of it with every tower overwritten by a blank one;
both passes succeed and give the same labels. -/
theorem assignment_deterministic_witness :
    sample_network.reuse_factor
      = ({ sample_network with cells := blank.cells } : CellularNetwork Int).reuse_factor ∧
    sample_network.num_frequencies
      = ({ sample_network with cells := blank.cells } : CellularNetwork Int).num_frequencies ∧
    sample_network.num_cells
      = ({ sample_network with cells := blank.cells } : CellularNetwork Int).num_cells ∧
    sample_network.num_cells ≤ (MAX_CELLS : Int) ∧
    ((sample_network.reuse_factor ≠ 0 ∧ sample_network.num_frequencies ≠ 0) ∨
      sample_network.num_cells ≤ 0) ∧
    ∃ a b : CellularNetwork Int,
      assign_frequencies sample_network = .ok a ∧
      assign_frequencies { sample_network with cells := blank.cells } = .ok b ∧
      a.num_cells = sample_network.num_cells ∧ b.num_cells = sample_network.num_cells ∧
      ∀ k : Fin MAX_CELLS, (k.val : Int) < sample_network.num_cells →
        (a.cells k).cluster_id = (b.cells k).cluster_id ∧
        (a.cells k).frequency = (b.cells k).frequency ∧
        (a.cells k).cluster_id = Int.tmod (k.val : Int) sample_network.reuse_factor ∧
        (a.cells k).frequency
          = Int.tmod (Int.tmod (k.val : Int) sample_network.reuse_factor)
              sample_network.num_frequencies :=
  ⟨rfl, rfl, rfl, by decide, by decide,
    (assignment_deterministic sample_network { sample_network with cells := blank.cells }
      rfl rfl rfl (by decide)).1 (by decide)⟩

/-- C15: when `1 ≤ num_frequencies < reuse_factor` and the network (within
the array) holds more than `num_frequencies` towers, `assign_frequencies`
succeeds and leaves tower 0 in cluster 0 and tower `num_frequencies` in
cluster `num_frequencies`, two different clusters, both on frequency 0. -/
theorem clusters_collapse {F : Type} (network : CellularNetwork F)
    (hn : network.num_cells ≤ (MAX_CELLS : Int))
    (h1 : 1 ≤ network.num_frequencies)
    (h2 : network.num_frequencies < network.reuse_factor)
    (h3 : network.num_frequencies < network.num_cells) :
    ∃ (network' : CellularNetwork F) (a b : Fin MAX_CELLS),
      assign_frequencies network = .ok network' ∧
      (a.val : Int) = 0 ∧ (b.val : Int) = network.num_frequencies ∧
      (a.val : Int) < network'.num_cells ∧ (b.val : Int) < network'.num_cells ∧
      (network'.cells a).cluster_id = 0 ∧
      (network'.cells b).cluster_id = network.num_frequencies ∧
      (network'.cells a).cluster_id ≠ (network'.cells b).cluster_id ∧
      (network'.cells a).frequency = 0 ∧ (network'.cells b).frequency = 0 := by
  obtain ⟨a, -, ha⟩ := index_ok 0 (le_refl 0) (by omega)
  obtain ⟨b, -, hb⟩ := index_ok network.num_frequencies (by omega) (by omega)
  have e := assign_frequencies_eq network hn (Or.inl (by omega)) (Or.inl (by omega))
  have hal : (a.val : Int) < network.num_cells := by omega
  have hbl : (b.val : Int) < network.num_cells := by omega
  have hca : (assigned network).cells a
      = { network.cells a with
          cluster_id := Int.tmod (a.val : Int) network.reuse_factor
          frequency := Int.tmod (Int.tmod (a.val : Int) network.reuse_factor)
            network.num_frequencies } := by
    simp only [assigned, hal, if_true]
  have hcb : (assigned network).cells b
      = { network.cells b with
          cluster_id := Int.tmod (b.val : Int) network.reuse_factor
          frequency := Int.tmod (Int.tmod (b.val : Int) network.reuse_factor)
            network.num_frequencies } := by
    simp only [assigned, hbl, if_true]
  have tb : Int.tmod network.num_frequencies network.reuse_factor = network.num_frequencies := by
    rw [Int.tmod_eq_emod (by omega) (by omega)]
    exact Int.emod_eq_of_lt (by omega) h2
  have tbb : Int.tmod network.num_frequencies network.num_frequencies = 0 := by
    rw [Int.tmod_eq_emod (by omega) (by omega)]
    exact Int.emod_self
  refine ⟨_, a, b, e, ha, hb, hal, hbl, ?_, ?_, ?_, ?_, ?_⟩
  · rw [hca, ha]; simp
  · rw [hcb, hb]; exact tb
  · rw [hca, hcb, ha, hb, tb]
    simp only [Int.zero_tmod]
    omega
  · rw [hca, ha]; simp
  · rw [hcb, hb]
    simp only [tb, tbb]

/-- Witness of C15: reuse factor 3, two frequencies, three towers. -/
theorem clusters_collapse_witness :
    ({ blank with num_cells := 3, reuse_factor := 3, num_frequencies := 2 } :
      CellularNetwork Int).num_cells ≤ (MAX_CELLS : Int) ∧
    ∃ (network' : CellularNetwork Int) (a b : Fin MAX_CELLS),
      assign_frequencies
        { blank with num_cells := 3, reuse_factor := 3, num_frequencies := 2 } = .ok network' ∧
      (a.val : Int) = 0 ∧ (b.val : Int) = 2 ∧
      (a.val : Int) < network'.num_cells ∧ (b.val : Int) < network'.num_cells ∧
      (network'.cells a).cluster_id = 0 ∧
      (network'.cells b).cluster_id = 2 ∧
      (network'.cells a).cluster_id ≠ (network'.cells b).cluster_id ∧
      (network'.cells a).frequency = 0 ∧ (network'.cells b).frequency = 0 :=
  ⟨by decide,
    clusters_collapse { blank with num_cells := 3, reuse_factor := 3, num_frequencies := 2 }
      (by decide) (by decide) (by decide) (by decide)⟩

theorem store_frequency {F : Type} (s s' : CellularNetwork F) (i : Int)
    (f : CellTower F → CellTower F) (h : store s i f = .ok s')
    (hf : ∀ c, (f c).frequency = c.frequency) :
    ∀ k : Fin MAX_CELLS, (s'.cells k).frequency = (s.cells k).frequency := by
  unfold store at h
  split at h
  · rename_i k0 hk0
    cases h
    intro m
    by_cases hm : m = k0
    · subst hm
      simpa using hf (s.cells m)
    · simp [Function.update_noteq hm]
  · cases h

theorem assign_clusters_frequency {F : Type} (network network' : CellularNetwork F)
    (h : assign_clusters network = .ok network') :
    ∀ k : Fin MAX_CELLS, (network'.cells k).frequency = (network.cells k).frequency :=
  iterate_inv assign_clusters_body
    (fun s => ∀ k : Fin MAX_CELLS, (s.cells k).frequency = (network.cells k).frequency)
    (fun s i s' hs hb k => by
      unfold assign_clusters_body at hb
      split at hb
      · rw [store_frequency s s' i _ hb (fun _ => rfl) k]
        exact hs k
      · cases hb)
    _ _ network network' (fun _ => rfl) h

/-- C16: whenever `assign_clusters` or `assign_frequencies` returns a
network, the tower count, `reuse_factor`, `num_frequencies` and the `id`,
`x`, `y` of every tower are as before, and after `assign_clusters` so is
every `frequency`; and both passes do return a network when the count is
within the array and the two configuration values are nonzero. -/
theorem assignment_frame {F : Type} (network : CellularNetwork F) :
    (∀ n1 : CellularNetwork F, assign_clusters network = .ok n1 →
      n1.num_cells = network.num_cells ∧ n1.reuse_factor = network.reuse_factor ∧
      n1.num_frequencies = network.num_frequencies ∧
      ∀ k : Fin MAX_CELLS, (n1.cells k).id = (network.cells k).id ∧
        (n1.cells k).x = (network.cells k).x ∧ (n1.cells k).y = (network.cells k).y ∧
        (n1.cells k).frequency = (network.cells k).frequency) ∧
    (∀ n2 : CellularNetwork F, assign_frequencies network = .ok n2 →
      n2.num_cells = network.num_cells ∧ n2.reuse_factor = network.reuse_factor ∧
      n2.num_frequencies = network.num_frequencies ∧
      ∀ k : Fin MAX_CELLS, (n2.cells k).id = (network.cells k).id ∧
        (n2.cells k).x = (network.cells k).x ∧ (n2.cells k).y = (network.cells k).y) ∧
    (network.num_cells ≤ (MAX_CELLS : Int) → network.reuse_factor ≠ 0 →
      network.num_frequencies ≠ 0 →
      ∃ n1 n2 : CellularNetwork F,
        assign_clusters network = .ok n1 ∧ assign_frequencies network = .ok n2) := by
  refine ⟨?_, ?_, ?_⟩
  · intro n1 h
    obtain ⟨hc, hr, hf, hcells⟩ := assign_clusters_framed network n1 h
    have hfreq := assign_clusters_frequency network n1 h
    exact ⟨hc, hr, hf, fun k => ⟨(hcells k).1, (hcells k).2.1, (hcells k).2.2, hfreq k⟩⟩
  · intro n2 h
    exact assign_frequencies_framed network n2 h
  · intro hn hrf hnf
    exact ⟨_, _, assign_clusters_eq network hn (Or.inl hrf),
      assign_frequencies_eq network hn (Or.inl hrf) (Or.inl hnf)⟩

/-- C18: in a network built by `initialize_network` and `add_cell` calls with
`frequencyPoolSize ≥ reuseFactor ≥ 1`, `assign_frequencies` succeeds and
leaves every tower with `frequency = cluster_id`; hence two towers share a
frequency exactly when their ids are congruent modulo `reuseFactor`, which is
exactly when they are in the same cluster. -/
theorem frequency_is_cluster {F : Type} (base : CellularNetwork F)
    (reuseFactor frequencyPoolSize : Int) (pts : List (F × F))
    (hrf : 1 ≤ reuseFactor) (hnf : reuseFactor ≤ frequencyPoolSize) :
    ∃ network network' : CellularNetwork F,
      add_cells (initialize_network base reuseFactor frequencyPoolSize) pts = .ok network ∧
      assign_frequencies network = .ok network' ∧
      network'.num_cells = network.num_cells ∧
      (∀ k : Fin MAX_CELLS, (k.val : Int) < network'.num_cells →
        (network'.cells k).frequency = (network'.cells k).cluster_id) ∧
      ∀ a b : Fin MAX_CELLS, (a.val : Int) < network'.num_cells →
        (b.val : Int) < network'.num_cells →
        ((network'.cells a).frequency = (network'.cells b).frequency ↔
          (network'.cells a).id % reuseFactor = (network'.cells b).id % reuseFactor) ∧
        ((network'.cells a).frequency = (network'.cells b).frequency ↔
          (network'.cells a).cluster_id = (network'.cells b).cluster_id) := by
  obtain ⟨network, e1, d1, r1, f1, -, -⟩ :=
    add_cells_dense pts (initialize_network base reuseFactor frequencyPoolSize)
      (initialize_network_dense base _ _)
  have hr : network.reuse_factor = reuseFactor := r1
  have hf : network.num_frequencies = frequencyPoolSize := f1
  have e2 := assign_frequencies_eq network d1.2.1 (Or.inl (by rw [hr]; omega))
    (Or.inl (by rw [hf]; omega))
  have key : ∀ k : Fin MAX_CELLS, (k.val : Int) < network.num_cells →
      (assigned network).cells k
        = { network.cells k with
            cluster_id := (k.val : Int) % reuseFactor
            frequency := (k.val : Int) % reuseFactor } := by
    intro k hk
    have hk0 : (0 : Int) ≤ (k.val : Int) := Int.ofNat_nonneg _
    have hm0 : 0 ≤ (k.val : Int) % reuseFactor := Int.emod_nonneg _ (by omega)
    have hm1 : (k.val : Int) % reuseFactor < reuseFactor := Int.emod_lt_of_pos _ (by omega)
    simp only [assigned, hk, if_true, hr, hf]
    rw [Int.tmod_eq_emod hk0 (by omega), Int.tmod_eq_emod hm0 (by omega),
      Int.emod_eq_of_lt hm0 (by omega)]
  refine ⟨network, _, e1, e2, rfl, ?_, ?_⟩
  · intro k hk
    rw [key k hk]
  · intro a b ha hb
    have ida : (network.cells a).id = (a.val : Int) := d1.2.2 a ha
    have idb : (network.cells b).id = (b.val : Int) := d1.2.2 b hb
    rw [key a ha, key b hb]
    constructor <;> simp only [ida, idb]

/-- Witness of C18: reuse factor 3, five frequencies and three towers. -/
theorem frequency_is_cluster_witness :
    (1 : Int) ≤ 3 ∧ (3 : Int) ≤ 5 ∧
    ∃ network network' : CellularNetwork Int,
      add_cells (initialize_network blank 3 5) [(0, 0), (0, 0), (100, 100)] = .ok network ∧
      assign_frequencies network = .ok network' ∧
      network'.num_cells = network.num_cells ∧
      (∀ k : Fin MAX_CELLS, (k.val : Int) < network'.num_cells →
        (network'.cells k).frequency = (network'.cells k).cluster_id) ∧
      ∀ a b : Fin MAX_CELLS, (a.val : Int) < network'.num_cells →
        (b.val : Int) < network'.num_cells →
        ((network'.cells a).frequency = (network'.cells b).frequency ↔
          (network'.cells a).id % 3 = (network'.cells b).id % 3) ∧
        ((network'.cells a).frequency = (network'.cells b).frequency ↔
          (network'.cells a).cluster_id = (network'.cells b).cluster_id) :=
  ⟨by decide, by decide,
    frequency_is_cluster blank 3 5 [(0, 0), (0, 0), (100, 100)] (by decide) (by decide)⟩

/-! ## Positions of the towers of a built network -/

theorem add_cells_position {F : Type} (pts : List (F × F)) :
    ∀ network : CellularNetwork F, Dense network →
      ∀ network', add_cells network pts = .ok network' →
        ∀ (t : Nat) (k : Fin MAX_CELLS), (k.val : Int) = network.num_cells + (t : Int) →
          ∀ p : F × F, pts[t]? = some p →
            (network'.cells k).x = p.1 ∧ (network'.cells k).y = p.2 := by
  induction pts with
  | nil =>
    intro network _ network' _ t k _ p hp
    simp at hp
  | cons q qs ih =>
    intro network hd network' h t k hk p hp
    have hlt : network.num_cells < (MAX_CELLS : Int) := by
      have := k.isLt
      omega
    obtain ⟨k0, -, hk0⟩ := index_ok network.num_cells hd.1 hlt
    have e1 := add_cell_eq network q.1 q.2 k0 hk0
    obtain ⟨n1, e1', d1, -⟩ := add_cell_dense network q.1 q.2 hd
    have hn1 : n1 = _ := Except.ok.inj (e1'.symm.trans e1)
    simp only [add_cells, e1'] at h
    cases t with
    | zero =>
      simp only [List.getElem?_cons_zero, Option.some.injEq] at hp
      subst hp
      have hkk : k = k0 := Fin.ext (by
        simp only [Nat.cast_zero, add_zero] at hk
        omega)
      subst hkk
      obtain ⟨n2, e2, -, -, -, -, keep⟩ := add_cells_dense qs n1 d1
      have : network' = n2 := Except.ok.inj (h.symm.trans e2)
      rw [this, keep k (by rw [hn1]; simp only; omega), hn1]
      simp
    | succ s =>
      simp only [List.getElem?_cons_succ] at hp
      refine ih n1 d1 network' h s k ?_ p hp
      rw [hn1]
      simp only
      push_cast at hk
      omega

/-! ## Scenarios -/

/-- C12 (scenario A): with reuse factor 3 and five frequencies, three towers
added at `(0,0)`, `(0,0)`, `(100,100)` get cluster ids `0, 1, 2` and
frequencies `0, 1, 2` from `assign_frequencies`, towers 0 and 1 being on the
same spot; the interference check then reports no pair, for `minDistance = 1`
as for every other threshold. -/
theorem scenario_a {F : Type} [DoubleArith F] (base : CellularNetwork F) (minDistance : F) :
    ∃ (network network' : CellularNetwork F) (r : Report),
      add_cells (initialize_network base 3 5)
        [(DoubleArith.ofInt 0, DoubleArith.ofInt 0), (DoubleArith.ofInt 0, DoubleArith.ofInt 0),
          (DoubleArith.ofInt 100, DoubleArith.ofInt 100)] = .ok network ∧
      assign_frequencies network = .ok network' ∧
      network'.num_cells = 3 ∧
      (network'.cells ⟨0, by decide⟩).cluster_id = 0 ∧
      (network'.cells ⟨1, by decide⟩).cluster_id = 1 ∧
      (network'.cells ⟨2, by decide⟩).cluster_id = 2 ∧
      (network'.cells ⟨0, by decide⟩).frequency = 0 ∧
      (network'.cells ⟨1, by decide⟩).frequency = 1 ∧
      (network'.cells ⟨2, by decide⟩).frequency = 2 ∧
      (network'.cells ⟨0, by decide⟩).x = (network'.cells ⟨1, by decide⟩).x ∧
      (network'.cells ⟨0, by decide⟩).y = (network'.cells ⟨1, by decide⟩).y ∧
      simulate_interference_check network' (DoubleArith.ofInt 1) = .ok r ∧
      simulate_interference_check network' minDistance = .ok r ∧
      r.pairs = [] ∧ r.interference_count = 0 ∧ r.none_detected = true := by
  obtain ⟨network, e1, d1, r1, f1, c1, -⟩ :=
    add_cells_dense
      [((DoubleArith.ofInt 0 : F), (DoubleArith.ofInt 0 : F)),
        (DoubleArith.ofInt 0, DoubleArith.ofInt 0),
        (DoubleArith.ofInt 100, DoubleArith.ofInt 100)]
      (initialize_network base 3 5) (initialize_network_dense base 3 5)
  have hr : network.reuse_factor = 3 := r1
  have hf : network.num_frequencies = 5 := f1
  have hc : network.num_cells = 3 := by
    rw [c1]
    simp [initialize_network, MAX_CELLS]
  have e2 := assign_frequencies_eq network d1.2.1 (Or.inl (by rw [hr]; decide))
    (Or.inl (by rw [hf]; decide))
  have p0 : (network.cells ⟨0, by decide⟩).x = DoubleArith.ofInt 0 ∧
      (network.cells ⟨0, by decide⟩).y = DoubleArith.ofInt 0 :=
    add_cells_position _ _ (initialize_network_dense base 3 5) network e1 0
      ⟨0, by decide⟩ (by simp [initialize_network]) (DoubleArith.ofInt 0, DoubleArith.ofInt 0) rfl
  have p1 : (network.cells ⟨1, by decide⟩).x = DoubleArith.ofInt 0 ∧
      (network.cells ⟨1, by decide⟩).y = DoubleArith.ofInt 0 :=
    add_cells_position _ _ (initialize_network_dense base 3 5) network e1 1
      ⟨1, by decide⟩ (by simp [initialize_network]) (DoubleArith.ofInt 0, DoubleArith.ofInt 0) rfl
  have hn' : (assigned network).num_cells ≤ (MAX_CELLS : Int) := d1.2.1
  have hpairs : ∀ d : F, rows (assigned network) d (assigned network).num_cells.toNat = [] := by
    intro d
    rw [List.eq_nil_iff_forall_not_mem]
    rintro ⟨i, j⟩ hp
    rw [mem_pairs (assigned network) d hn'] at hp
    obtain ⟨h0, h1, h2, h3⟩ := hp
    have h2' : j < 3 := by
      have : (assigned network).num_cells = 3 := hc
      omega
    obtain ⟨ki, -, hki⟩ := index_ok i h0 (by simp only [MAX_CELLS]; omega)
    obtain ⟨kj, -, hkj⟩ := index_ok j (by omega) (by simp only [MAX_CELLS]; omega)
    rw [← hki, ← hkj, check_interference_eq] at h3
    have hki3 : (ki.val : Int) < network.num_cells := by omega
    have hkj3 : (kj.val : Int) < network.num_cells := by omega
    have hne : ((assigned network).cells ki).frequency
        ≠ ((assigned network).cells kj).frequency := by
      simp only [assigned, hki3, hkj3, if_true, hr, hf]
      have a0 : (0 : Int) ≤ (ki.val : Int) := Int.ofNat_nonneg _
      have b0 : (0 : Int) ≤ (kj.val : Int) := Int.ofNat_nonneg _
      rw [Int.tmod_eq_emod a0 (by decide), Int.tmod_eq_emod b0 (by decide),
        Int.tmod_eq_emod (Int.emod_nonneg _ (by decide)) (by decide),
        Int.tmod_eq_emod (Int.emod_nonneg _ (by decide)) (by decide)]
      omega
    rw [if_neg (fun h => hne h.1)] at h3
    cases h3
  have hsim : ∀ d : F, simulate_interference_check (assigned network) d
      = .ok { pairs := [], interference_count := 0, none_detected := true } := by
    intro d
    rw [simulate_eq (assigned network) d hn', hpairs d]
    rfl
  refine ⟨network, _, _, e1, e2, hc, ?_, ?_, ?_, ?_, ?_, ?_, ?_, ?_, hsim _, hsim _,
    rfl, rfl, rfl⟩
  · simp [assigned, hc, hr]
  · simp [assigned, hc, hr]; decide
  · simp [assigned, hc, hr]; decide
  · simp [assigned, hc, hr, hf]
  · simp [assigned, hc, hr, hf]; decide
  · simp [assigned, hc, hr, hf]; decide
  · simp only [assigned, hc]
    rw [if_pos (by decide), if_pos (by decide)]
    exact p0.1.trans p1.1.symm
  · simp only [assigned, hc]
    rw [if_pos (by decide), if_pos (by decide)]
    exact p0.2.trans p1.2.symm

theorem iterate_eq_foldlM {σ : Type} (body : σ → Int → Except Fault σ) (k : Nat) :
    ∀ (i : Int) (s : σ),
      iterate body k i s = List.foldlM body s ((List.range k).map (fun t : Nat => i + (t : Int))) := by
  induction k with
  | zero => intro i s; rfl
  | succ k ih =>
    intro i s
    rw [List.range_succ_eq_map, List.map_cons, List.foldlM_cons, List.map_map]
    simp only [iterate, Nat.cast_zero, add_zero]
    cases hb : body s i with
    | error e => rfl
    | ok s1 =>
      simp only [bind, Except.bind]
      rw [ih (i + 1) s1]
      congr 1
      apply List.map_congr_left
      intro t _
      simp only [Function.comp, Nat.succ_eq_add_one, Nat.cast_add, Nat.cast_one]
      ring

theorem for_loop_eq_foldlM {σ : Type} (lo hi : Int) (body : σ → Int → Except Fault σ) (s : σ) :
    for_loop lo hi body s = List.foldlM body s (loop_counters lo hi) :=
  iterate_eq_foldlM body _ lo s

theorem mem_loop_counters (lo hi i : Int) : i ∈ loop_counters lo hi ↔ lo ≤ i ∧ i < hi := by
  simp only [loop_counters, List.mem_map, List.mem_range]
  constructor
  · rintro ⟨t, ht, rfl⟩
    omega
  · rintro ⟨h1, h2⟩
    exact ⟨(i - lo).toNat, by omega, by omega⟩

/-- C17: on a network with `reuse_factor ≥ 1`, `num_frequencies ≥ 1` and
`num_cells ≤ MAX_CELLS` (in particular `0 ≤ num_cells ≤ MAX_CELLS`), `assign_clusters` and `assign_frequencies` return
a network, no fault being reached.  Each pass is the fold of its loop body
over the counter values, all of which lie in `[0, num_cells)`; the body at
counter `i` subscripts `cells` with `i` only, the subscript resolves, and the
remainder it takes has a nonzero divisor.  Likewise
`simulate_interference_check` returns a report, it is the fold of its bodies
over the counters, and every pair `(i, j)` of counters that it passes to
`check_interference` has both members in `[0, num_cells)`. -/
theorem assignment_safe {F : Type} [DoubleArith F] (network : CellularNetwork F)
    (minDistance : F) (hrf : 1 ≤ network.reuse_factor) (hnf : 1 ≤ network.num_frequencies)
    (hn : network.num_cells ≤ (MAX_CELLS : Int)) :
    (∃ n1 n2 : CellularNetwork F,
      assign_clusters network = .ok n1 ∧ assign_frequencies network = .ok n2 ∧
      n1.num_cells = network.num_cells ∧
      List.foldlM assign_clusters_body network (loop_counters 0 network.num_cells) = .ok n1 ∧
      List.foldlM assign_frequencies_body n1 (loop_counters 0 n1.num_cells) = .ok n2 ∧
      ∀ i ∈ loop_counters 0 network.num_cells,
        (0 ≤ i ∧ i < network.num_cells) ∧
        (∃ k : Fin MAX_CELLS, index i = .ok k ∧ (k.val : Int) = i ∧
          (∃ c : Int, c_mod i network.reuse_factor = .ok c) ∧
          (∃ f : Int, c_mod (n1.cells k).cluster_id network.num_frequencies = .ok f))) ∧
    (∃ r : Report, simulate_interference_check network minDistance = .ok r) ∧
    (∀ s : List (Int × Int) × Int, ∀ i : Int,
      outer_body network minDistance s i
        = List.foldlM (inner_body network minDistance i) s
            (loop_counters (i + 1) network.num_cells)) ∧
    for_loop 0 network.num_cells (outer_body network minDistance) ([], 0)
      = List.foldlM (outer_body network minDistance) ([], 0)
          (loop_counters 0 network.num_cells) ∧
    ∀ i ∈ loop_counters 0 network.num_cells, ∀ j ∈ loop_counters (i + 1) network.num_cells,
      (0 ≤ i ∧ i < network.num_cells) ∧ (0 ≤ j ∧ j < network.num_cells) ∧
      ∃ r : Int, check_interference network i j minDistance = .ok r := by
  have hr : network.reuse_factor ≠ 0 := by omega
  have hf : network.num_frequencies ≠ 0 := by omega
  have e1 := assign_clusters_eq network hn (Or.inl hr)
  have e2 := assign_frequencies_eq network hn (Or.inl hr) (Or.inl hf)
  refine ⟨⟨_, _, e1, e2, rfl, ?_, ?_, ?_⟩, ⟨_, simulate_eq network minDistance hn⟩,
    fun s i => for_loop_eq_foldlM _ _ _ s, for_loop_eq_foldlM _ _ _ _, ?_⟩
  · rw [← for_loop_eq_foldlM]
    exact e1
  · rw [← for_loop_eq_foldlM]
    have := e2
    simp only [assign_frequencies, e1] at this
    exact this
  · intro i hi
    rw [mem_loop_counters] at hi
    obtain ⟨k, hk, hkv⟩ := index_ok i hi.1 (by omega)
    refine ⟨hi, k, hk, hkv, ⟨_, c_mod_nonneg i _ hi.1 hr⟩, ⟨_, c_mod_nonneg _ _ ?_ hf⟩⟩
    have hlt : (k.val : Int) < network.num_cells := by omega
    simp only [clusters_upto, hlt, if_true]
    exact Int.tmod_nonneg _ (Int.ofNat_nonneg _)
  · intro i hi j hj
    rw [mem_loop_counters] at hi hj
    have hj0 : 0 ≤ j := by omega
    obtain ⟨ki, -, hki⟩ := index_ok i hi.1 (by omega)
    obtain ⟨kj, -, hkj⟩ := index_ok j hj0 (by omega)
    refine ⟨hi, ⟨hj0, hj.2⟩, ?_⟩
    rw [← hki, ← hkj, check_interference_eq]
    exact ⟨_, rfl⟩

/-- Witness of C17: four towers with reuse factor 2 and one frequency. -/
theorem assignment_safe_witness :
    1 ≤ crowded_network.reuse_factor ∧ 1 ≤ crowded_network.num_frequencies ∧
    crowded_network.num_cells ≤ (MAX_CELLS : Int) ∧
    (∃ n1 n2 : CellularNetwork Int,
      assign_clusters crowded_network = .ok n1 ∧ assign_frequencies crowded_network = .ok n2 ∧
      n1.num_cells = crowded_network.num_cells ∧
      List.foldlM assign_clusters_body crowded_network
        (loop_counters 0 crowded_network.num_cells) = .ok n1 ∧
      List.foldlM assign_frequencies_body n1 (loop_counters 0 n1.num_cells) = .ok n2 ∧
      ∀ i ∈ loop_counters 0 crowded_network.num_cells,
        (0 ≤ i ∧ i < crowded_network.num_cells) ∧
        (∃ k : Fin MAX_CELLS, index i = .ok k ∧ (k.val : Int) = i ∧
          (∃ c : Int, c_mod i crowded_network.reuse_factor = .ok c) ∧
          (∃ f : Int, c_mod (n1.cells k).cluster_id crowded_network.num_frequencies
            = .ok f))) ∧
    (∃ r : Report, simulate_interference_check crowded_network 1 = .ok r) ∧
    (∀ s : List (Int × Int) × Int, ∀ i : Int,
      outer_body crowded_network 1 s i
        = List.foldlM (inner_body crowded_network 1 i) s
            (loop_counters (i + 1) crowded_network.num_cells)) ∧
    for_loop 0 crowded_network.num_cells (outer_body crowded_network 1) ([], 0)
      = List.foldlM (outer_body crowded_network 1) ([], 0)
          (loop_counters 0 crowded_network.num_cells) ∧
    ∀ i ∈ loop_counters 0 crowded_network.num_cells,
      ∀ j ∈ loop_counters (i + 1) crowded_network.num_cells,
        (0 ≤ i ∧ i < crowded_network.num_cells) ∧ (0 ≤ j ∧ j < crowded_network.num_cells) ∧
        ∃ r : Int, check_interference crowded_network i j 1 = .ok r :=
  ⟨by decide, by decide, by decide,
    assignment_safe crowded_network 1 (by decide) (by decide) (by decide)⟩

end FreqReuse
